import Mathlib

/-!
Shallow embedding of the GL2F transaction-mapping pipeline.

The TypeScript services (TextProcessor, SimilarityCalculator,
AccountPatternBuilder, TransactionFeatureExtractor, AccountMatcher,
TransactionPatternMatcher, RAGMapper, MappingOrchestrator) are translated
into executable Lean definitions.  JavaScript numbers are modelled by `Q`,
an unreduced fraction of integers (the pipeline only ever divides by
non-negative quantities, and every concrete run keeps denominators
positive); JavaScript exceptions are modelled by `Except JsErr`;
JavaScript `Map` insertion-order semantics are modelled by association
lists.
-/

/-- Error kinds thrown by the embedded code.  `typeError` stands for a
JavaScript `TypeError` raised when a value of the wrong dynamic type
reaches a library call (e.g. a string passed where an array is required,
or an array where a string is required); `lengthMismatch` is the
`SimilarityCalculator` guard `Vectors must have the same length`;
`malformedTransaction` is the orchestrator error
`Transaction must have both debit and credit entries`; `notInitialized`
is `Mapping orchestrator not initialized`. -/
inductive JsErr where
  | notInitialized
  | typeError
  | lengthMismatch
  | malformedTransaction
deriving DecidableEq, Repr

instance {ε α : Type} [DecidableEq ε] [DecidableEq α] :
    DecidableEq (Except ε α) := fun a b =>
  match a, b with
  | .ok x, .ok y =>
      if h : x = y then isTrue (by rw [h]) else isFalse (by intro hc; cases hc; exact h rfl)
  | .error x, .error y =>
      if h : x = y then isTrue (by rw [h]) else isFalse (by intro hc; cases hc; exact h rfl)
  | .ok _, .error _ => isFalse (by intro hc; cases hc)
  | .error _, .ok _ => isFalse (by intro hc; cases hc)

/-- JavaScript numbers as unreduced fractions `num / den`.  All fractions
built by the pipeline have non-negative denominators; comparisons are by
cross-multiplication, so they agree with the rational order whenever both
denominators are positive. -/
structure Q where
  num : Int
  den : Int
deriving DecidableEq, Repr

/-- Rational denotation of a `Q` value. -/
def Q.toRat (a : Q) : ℚ := (a.num : ℚ) / (a.den : ℚ)

/-- Cross-multiplication comparison, the order used by every numeric
comparison in the embedded code. -/
def Q.blt (a b : Q) : Bool := a.num * b.den < b.num * a.den

/-- Cross-multiplication less-or-equal. -/
def Q.ble (a b : Q) : Bool := a.num * b.den ≤ b.num * a.den

def Q.add (a b : Q) : Q := ⟨a.num * b.den + b.num * a.den, a.den * b.den⟩

def Q.mul (a b : Q) : Q := ⟨a.num * b.num, a.den * b.den⟩

/-- Division `(a.num/a.den) / (b.num/b.den) = (a.num * b.den) / (a.den * b.num)`. -/
def Q.div (a b : Q) : Q := ⟨a.num * b.den, a.den * b.num⟩

/-- `Math.min` on two numbers.  A `NaN` argument — represented by a zero
denominator, the `0/0` produced by a zero-norm cosine — makes the result
`NaN`, exactly as `Math.min` does; on fractions with non-zero denominators
it is the cross-multiplication minimum. -/
def Q.jsMin (a b : Q) : Q :=
  if a.den = 0 then a
  else if b.den = 0 then b
  else if Q.ble a b then a else b

/-- JavaScript `<=`: `NaN` (a zero denominator, the `0/0` of a zero-norm
cosine) compares false against everything; otherwise cross-multiplication,
which agrees with the rational order on the positive denominators the
pipeline builds. -/
def Q.jsLe (a b : Q) : Bool :=
  if a.den = 0 ∨ b.den = 0 then false
  else a.num * b.den ≤ b.num * a.den

/-- Embed a natural number. -/
def Q.ofNat (n : Nat) : Q := ⟨(n : Int), 1⟩

/-- Positivity of the denominator: the well-formedness condition under
which `Q.blt`/`Q.ble` agree with the rational order. -/
def Q.PosDen (a : Q) : Prop := 0 < a.den

theorem Q.toRat_ofNat (n : Nat) : (Q.ofNat n).toRat = (n : ℚ) := by
  simp [Q.toRat, Q.ofNat]

theorem Q.ble_iff (a b : Q) (ha : a.PosDen) (hb : b.PosDen) :
    Q.ble a b = true ↔ a.toRat ≤ b.toRat := by
  have ha' : (0 : ℚ) < (a.den : ℚ) := by exact_mod_cast ha
  have hb' : (0 : ℚ) < (b.den : ℚ) := by exact_mod_cast hb
  rw [Q.toRat, Q.toRat, div_le_div_iff ha' hb']
  rw [Q.ble, decide_eq_true_eq]
  constructor
  · intro h
    exact_mod_cast h
  · intro h
    exact_mod_cast h

theorem Q.blt_iff (a b : Q) (ha : a.PosDen) (hb : b.PosDen) :
    Q.blt a b = true ↔ a.toRat < b.toRat := by
  have ha' : (0 : ℚ) < (a.den : ℚ) := by exact_mod_cast ha
  have hb' : (0 : ℚ) < (b.den : ℚ) := by exact_mod_cast hb
  rw [Q.toRat, Q.toRat, div_lt_div_iff ha' hb']
  rw [Q.blt, decide_eq_true_eq]
  constructor
  · intro h
    exact_mod_cast h
  · intro h
    exact_mod_cast h

theorem Q.jsMin_cases (a b : Q) : Q.jsMin a b = a ∨ Q.jsMin a b = b := by
  unfold Q.jsMin
  by_cases h0 : a.den = 0
  · simp [h0]
  · by_cases h1 : b.den = 0
    · simp [h0, h1]
    · by_cases h : Q.ble a b = true
      · simp [h0, h1, h]
      · simp [h0, h1, h]

/-- A value with a non-negative numerator and positive denominator that is
bounded above by `hi` (given as an exact fraction): the invariant we track
for confidence values. -/
def Q.Bounded (a : Q) (hiNum hiDen : Int) : Prop :=
  0 < a.den ∧ 0 ≤ a.num ∧ a.num * hiDen ≤ hiNum * a.den

theorem Q.Bounded.toRat_nonneg {a : Q} {n d : Int} (h : a.Bounded n d) :
    0 ≤ a.toRat := by
  have hden : (0 : ℚ) < (a.den : ℚ) := by exact_mod_cast h.1
  have hnum : (0 : ℚ) ≤ (a.num : ℚ) := by exact_mod_cast h.2.1
  exact div_nonneg hnum (le_of_lt hden)

theorem Q.Bounded.toRat_le {a : Q} {n d : Int} (hd : 0 < d) (h : a.Bounded n d) :
    a.toRat ≤ (n : ℚ) / (d : ℚ) := by
  have hden : (0 : ℚ) < (a.den : ℚ) := by exact_mod_cast h.1
  have hd' : (0 : ℚ) < (d : ℚ) := by exact_mod_cast hd
  rw [Q.toRat, div_le_div_iff hden hd']
  exact_mod_cast h.2.2

/-! ## Generic JavaScript-flavoured utilities -/

/-- `Map.set` of a JavaScript `Map` over an association list: an existing
key keeps its position and gets the new value, a new key is appended. -/
def jsMapSet {β : Type} (m : List (String × β)) (k : String) (v : β) :
    List (String × β) :=
  if (m.lookup k).isSome then
    m.map (fun p => if p.1 = k then (k, v) else p)
  else
    m ++ [(k, v)]

/-- Stable insertion of `x` into `l`: `x` goes before the first element
that is not strictly before it.  `before y x = true` means `y` must stay
strictly before `x`. -/
def stableInsert {α : Type} (before : α → α → Bool) (x : α) :
    List α → List α
  | [] => [x]
  | y :: ys => if before y x then y :: stableInsert before x ys else x :: y :: ys

/-- Stable sort (the behaviour guaranteed for `Array.prototype.sort` with
a consistent comparator).  `before a b = true` iff the comparator orders
`a` strictly before `b`. -/
def stableSort {α : Type} (before : α → α → Bool) (l : List α) : List α :=
  l.foldr (stableInsert before) []

theorem mem_stableInsert {α : Type} (before : α → α → Bool) (x a : α)
    (l : List α) : a ∈ stableInsert before x l ↔ a = x ∨ a ∈ l := by
  induction l with
  | nil => simp [stableInsert]
  | cons y ys ih =>
      unfold stableInsert
      by_cases h : before y x = true
      · rw [if_pos h]
        simp only [List.mem_cons, ih]
        try tauto
      · rw [if_neg h]
        simp only [List.mem_cons]
        try tauto

theorem mem_stableSort {α : Type} (before : α → α → Bool) (a : α)
    (l : List α) : a ∈ stableSort before l ↔ a ∈ l := by
  induction l with
  | nil => simp [stableSort]
  | cons y ys ih =>
      simp only [stableSort, List.foldr_cons, mem_stableInsert, List.mem_cons]
      rw [stableSort] at ih
      rw [ih]

/-- Decimal digits of a natural number (fuel-based so that it reduces in
the kernel); used to render numeric feature values into strings. -/
def natDigitsAux : Nat → Nat → List Char
  | 0, _ => []
  | _ + 1, 0 => []
  | fuel + 1, n => natDigitsAux fuel (n / 10) ++ [Char.ofNat (48 + n % 10)]

/-- Render a natural number the way JavaScript renders an integral
`Number`. -/
def natToString (n : Nat) : String :=
  if n = 0 then "0" else String.mk (natDigitsAux (n + 1) n)

theorem except_bind_ok {ε α β : Type} (a : α) (f : α → Except ε β) :
    (Except.ok a : Except ε α) >>= f = f a := rfl

/-- Sequential effectful map over `Except` (the order in which a
JavaScript `Array.prototype.map` evaluates its callback): stops at the
first thrown error. -/
def mapE {ε α β : Type} (f : α → Except ε β) : List α → Except ε (List β)
  | [] => .ok []
  | a :: l => do
      let b ← f a
      let rest ← mapE f l
      pure (b :: rest)

theorem mapE_mem_ok {ε α β : Type} {f : α → Except ε β} {l : List α}
    {out : List β} (h : mapE f l = .ok out) :
    ∀ b ∈ out, ∃ a ∈ l, f a = .ok b := by
  induction l generalizing out with
  | nil =>
      cases h
      intro b hb
      cases hb
  | cons a l ih =>
      intro b hb
      unfold mapE at h
      cases hfa : f a with
      | error e => rw [hfa] at h; cases h
      | ok v =>
          rw [hfa] at h
          cases hrest : mapE f l with
          | error e => rw [hrest] at h; cases h
          | ok vs =>
              rw [hrest] at h
              have hvv : (Except.ok (v :: vs) : Except ε (List β)) = Except.ok out := h
              have hout : v :: vs = out := by
                cases hvv
                rfl
              subst hout
              rcases List.mem_cons.mp hb with hb | hb
              · subst hb
                exact ⟨a, List.mem_cons_self a l, hfa⟩
              · rcases ih hrest b hb with ⟨x, hx, hfx⟩
                exact ⟨x, List.mem_cons_of_mem a hx, hfx⟩

/-! ## TextProcessor (`textProcessing.ts`) -/

namespace TextProcessor

/-- The stop-word set of the `TextProcessor` constructor. -/
def stopWords : List String :=
  ["a", "an", "and", "are", "as", "at", "be", "by", "for",
   "from", "has", "he", "in", "is", "it", "its", "of", "on",
   "that", "the", "to", "was", "were", "will", "with"]

/-- Characters kept by the `replace(/[^a-z0-9\s]/g, '')` scrub (after
lowercasing): lowercase letters, digits and whitespace. -/
def keptChar (c : Char) : Bool :=
  (('a' ≤ c && c ≤ 'z') || ('0' ≤ c && c ≤ '9') || c = ' ' || c = '\t' || c = '\n')

/-- Whitespace for the `split(/\s+/)` tokenizer. -/
def wsChar (c : Char) : Bool := (c = ' ' || c = '\t' || c = '\n')

/-- `processText`: lowercase, strip characters outside `[a-z0-9\s]`, split
on whitespace, drop empty tokens, drop stop words. -/
def processText (text : String) : List String :=
  let scrubbed := (text.data.map Char.toLower).filter keptChar
  let words := (scrubbed.splitOnP wsChar).map String.mk
  let words := words.filter (fun w => w.length > 0)
  words.filter (fun w => ¬ (stopWords.contains w))

/-- `buildVocabulary`: insertion-ordered union of the tokens of all
texts (a JavaScript `Set` keeps first-insertion order). -/
def buildVocabulary (texts : List String) : List String :=
  texts.foldl
    (fun voc t => (processText t).foldl
      (fun voc w => if voc.contains w then voc else voc ++ [w]) voc)
    []

/-- `createVector`: term-frequency vector of `text` over the fixed
vocabulary order.  The source walks the words incrementing
`vector[vocabulary.indexOf(word)]`; over a duplicate-free vocabulary this
is the per-token occurrence count. -/
def createVector (text : String) (vocabulary : List String) : List Nat :=
  let words := processText text
  vocabulary.map (fun v => words.count v)

/-- Bigram list of a string, as in `string-similarity`. -/
def bigrams (l : List Char) : List (Char × Char) :=
  l.zip l.tail

/-- Multiset intersection size: `compareTwoStrings` iterates the second
string's bigrams, decrementing the first string's bigram counts. -/
def multisetInterAux : List (Char × Char) → List (Char × Char) → Nat
  | [], _ => 0
  | b :: bs, remaining =>
      if remaining.contains b then
        1 + multisetInterAux bs (remaining.erase b)
      else
        multisetInterAux bs remaining

/-- Modelled from the spec: `calculateSimilarity` delegates to the
`string-similarity` package's `compareTwoStrings` (a Dice bigram
coefficient), whose source is not part of this repository.  Whitespace is
removed, identical strings (including two empty strings) score 1, strings
shorter than two characters score 0, otherwise
`2 * |bigram intersection| / (len1 + len2 - 2)`. -/
def compareTwoStrings (s1 s2 : String) : Q :=
  let a := s1.data.filter (fun c => ¬ wsChar c)
  let b := s2.data.filter (fun c => ¬ wsChar c)
  if a = b then ⟨1, 1⟩
  else if a.length < 2 ∨ b.length < 2 then ⟨0, 1⟩
  else ⟨(multisetInterAux (bigrams b) (bigrams a) : Int) * 2,
        ((a.length + b.length - 2 : Nat) : Int)⟩

/-- Dynamic argument of the two similarity entry points: the repository
passes both strings and numeric vectors to each of them. -/
inductive JsVal where
  | str (s : String)
  | vec (v : List Nat)
deriving DecidableEq, Repr

/-- `TextProcessor.calculateSimilarity` lowercases its two arguments and
calls `compareTwoStrings`.  Calling `.toLowerCase()` on a numeric array
raises a `TypeError`, so vector arguments always throw. -/
def calculateSimilarity : JsVal → JsVal → Except JsErr Q
  | .str a, .str b => .ok (compareTwoStrings (String.mk (a.data.map Char.toLower))
      (String.mk (b.data.map Char.toLower)))
  | _, _ => .error .typeError

/-- `extractKeyPhrases`: word frequencies in first-occurrence order,
stable-sorted by descending count, top five. -/
def extractKeyPhrases (text : String) : List String :=
  let words := processText text
  let frequencies := words.foldl
    (fun m w => jsMapSet m w ((m.lookup w).getD 0 + 1)) ([] : List (String × Nat))
  ((stableSort (fun a b => b.2 < a.2) frequencies).take 5).map (·.1)

end TextProcessor

/-! ## Data model (`types/accounting`, `types/ledger`) -/

/-- Debit/credit tag, the TypeScript union `'debit' | 'credit'`. -/
inductive EntryType where
  | debit
  | credit
deriving DecidableEq, Repr

/-- String rendering of an `EntryType` (used where the source
interpolates the value into a string). -/
def EntryType.render : EntryType → String
  | .debit => "debit"
  | .credit => "credit"

/-- A chart-of-accounts entry. -/
structure Account where
  id : String
  code : String
  name : String
  description : Option String
  type : String
  subtype : String
  isActive : Bool
deriving DecidableEq, Repr

/-- A sign convention: which entry type is the normal balance for an
account type. -/
structure SignConvention where
  normalBalance : EntryType
deriving DecidableEq, Repr

/-- An accounting standard: a name and a per-account-type sign-convention
table. -/
structure AccountingStandard where
  name : String
  signConventions : List (String × SignConvention)
deriving DecidableEq, Repr

/-- One leg of a transaction.  `amount` is the raw decimal string of the
source data model. -/
structure TransactionEntry where
  accountNumber : String
  type : EntryType
  amount : String
deriving DecidableEq, Repr

/-- A raw transaction record. -/
structure Transaction where
  id : String
  description : String
  customerName : Option String
  date : String
  entries : List TransactionEntry
deriving DecidableEq, Repr

/-- A JavaScript account object as it appears inside a `MappingResult`:
every field may be absent.  The pattern-matching stage fabricates objects
carrying only `id` (`{ id: ... } as Account`), while the other stages
return complete chart-of-accounts objects. -/
structure JsAccount where
  id : Option String
  code : Option String
  name : Option String
  description : Option String
  type : Option String
  subtype : Option String
  isActive : Option Bool
deriving DecidableEq, Repr

/-- Embed a full chart-of-accounts object. -/
def Account.toJs (a : Account) : JsAccount :=
  ⟨some a.id, some a.code, some a.name, a.description, some a.type,
   some a.subtype, some a.isActive⟩

/-- The id-only stub built by `tryPatternMatching`. -/
def JsAccount.stub (accountId : String) : JsAccount :=
  ⟨some accountId, none, none, none, none, none, none⟩

/-- The orchestrator result type. -/
structure MappingResult where
  debitAccount : Option JsAccount
  creditAccount : Option JsAccount
  confidence : Q
deriving DecidableEq, Repr

/-- The unmapped result `{ confidence: 0 }`. -/
def MappingResult.zero : MappingResult := ⟨none, none, ⟨0, 1⟩⟩

/-- `parseFloat` on a decimal string: optional sign, digits, optional
fractional part; `none` models `NaN` (no leading digits at all).  The
exponent syntax is never used by the repository's data and is not
modelled. -/
def parseFloat (s : String) : Option Q :=
  let l := s.data.dropWhile (fun c => TextProcessor.wsChar c)
  let (sign, l) : Int × List Char :=
    match l with
    | '-' :: rest => (-1, rest)
    | '+' :: rest => (1, rest)
    | _ => (1, l)
  let intPart := l.takeWhile Char.isDigit
  let rest := l.drop intPart.length
  let fracPart :=
    match rest with
    | '.' :: r => r.takeWhile Char.isDigit
    | _ => []
  if intPart.isEmpty ∧ fracPart.isEmpty then none
  else
    let digits := intPart ++ fracPart
    let value := digits.foldl (fun acc c => acc * 10 + ((c.toNat - 48 : Nat) : Int)) 0
    some ⟨sign * value, ((10 : Nat) ^ fracPart.length : Nat)⟩

/-! ## SimilarityCalculator (`similarityCalculator.ts`) -/

namespace SimilarityCalculator

/-- Sum of pairwise products: the `compute-dot` kernel used by
`compute-cosine-similarity`. -/
def dotProduct (v w : List Nat) : Nat :=
  (List.zipWith (· * ·) v w).sum

open TextProcessor in
/-- `calculateSimilarity(vector1, vector2)`.  The method's own guard
throws when the two `length`s differ; it then calls the
`compute-cosine-similarity` package, which validates that both arguments
are arrays and throws a `TypeError` otherwise, so the call sites that pass
two strings always throw.  The package returns `null` for empty arrays
(a value every ensuing arithmetic and comparison treats as `0`, so it is
modelled as `0`); for non-empty vectors it returns
`dot / (l2norm(v) * l2norm(w))` with no zero-norm guard, so a zero-norm
input gives `0 / 0 = NaN`, modelled as the fraction `⟨0, 0⟩` (a zero-norm
count vector has a zero dot product with anything).  For non-zero vectors,
to stay inside exact arithmetic we return the square of the cosine,
`dot² / (Σv² · Σw²)`, which is order-isomorphic to it on the non-negative
count vectors the pipeline uses. -/
def calculateSimilarity : JsVal → JsVal → Except JsErr Q
  | .vec v, .vec w =>
      if v.length ≠ w.length then .error .lengthMismatch
      else if v.isEmpty then .ok ⟨0, 1⟩
      else
        let d := dotProduct v w
        let n1 := dotProduct v v
        let n2 := dotProduct w w
        if n1 * n2 = 0 then .ok ⟨0, 0⟩
        else .ok ⟨(d : Int) * d, ((n1 * n2 : Nat) : Int)⟩
  | .str a, .str b =>
      if a.length ≠ b.length then .error .lengthMismatch
      else .error .typeError
  | x, y =>
      match x, y with
      | .str a, .vec w => if a.length ≠ w.length then .error .lengthMismatch else .error .typeError
      | .vec v, .str b => if v.length ≠ b.length then .error .lengthMismatch else .error .typeError
      | _, _ => .error .typeError

/-- `calculateTextSimilarity(text1, text2)`: the memoized lexical wrapper.
Memoization does not change the returned value, so the cache is not
modelled.  This method is never called by the mapping pipeline. -/
def calculateTextSimilarity (text1 text2 : String) : Except JsErr Q :=
  TextProcessor.calculateSimilarity (.str text1) (.str text2)

end SimilarityCalculator

/-! ## Dates (the JavaScript `Date` built-in, for ISO `YYYY-MM-DD` strings) -/

/-- Gregorian leap year. -/
def isLeapYear (y : Nat) : Bool :=
  (y % 4 = 0 && y % 100 ≠ 0) || y % 400 = 0

/-- Days in a month, the value of `new Date(year, month + 1, 0).getDate()`. -/
def daysInMonth (y m : Nat) : Nat :=
  if m = 1 ∨ m = 3 ∨ m = 5 ∨ m = 7 ∨ m = 8 ∨ m = 10 ∨ m = 12 then 31
  else if m = 4 ∨ m = 6 ∨ m = 9 ∨ m = 11 then 30
  else if m = 2 then (if isLeapYear y then 29 else 28)
  else 0

/-- A parsed calendar date. -/
structure ParsedDate where
  year : Nat
  month : Nat
  day : Nat
deriving DecidableEq, Repr

/-- Modelled from the spec (§3, §4.1): the `Date` constructor on the ISO
`YYYY-MM-DD` strings the data model carries.  Out-of-range or non-ISO
strings give an Invalid Date, modelled as `none` (its `getDate`/`getDay`
are `NaN`). -/
def parseIsoDate (s : String) : Option ParsedDate :=
  match (s.data.splitOnP (fun c => c = '-')).map String.mk with
  | [ys, ms, ds] =>
      if ys.data ≠ [] ∧ ys.data.all Char.isDigit ∧
         ms.data ≠ [] ∧ ms.data.all Char.isDigit ∧
         ds.data ≠ [] ∧ ds.data.all Char.isDigit then
        let toN := fun (t : String) => t.data.foldl (fun acc c => acc * 10 + (c.toNat - 48)) 0
        let y := toN ys
        let m := toN ms
        let d := toN ds
        if 1 ≤ m ∧ m ≤ 12 ∧ 1 ≤ d ∧ d ≤ daysInMonth y m then
          some ⟨y, m, d⟩
        else none
      else none
  | _ => none

/-- Day of the week as `Date.prototype.getDay` reports it
(0 = Sunday … 6 = Saturday), by Zeller's congruence. -/
def dayOfWeek (date : ParsedDate) : Nat :=
  let (zm, zy) :=
    if date.month ≤ 2 then (date.month + 12, date.year - 1) else (date.month, date.year)
  let k := zy % 100
  let j := zy / 100
  let h := (date.day + (13 * (zm + 1)) / 5 + k + k / 4 + j / 4 + 5 * j) % 7
  (h + 6) % 7

/-! ## TransactionFeatureExtractor (`transactionFeatureExtractor.ts`) -/

/-- A typed, weighted feature.  The source stores `value: string | number`;
numeric values are kept here in their JavaScript string rendering, which
is the only way the pipeline consumes them. -/
structure Feature where
  type : String
  value : String
  weight : Q
deriving DecidableEq, Repr

namespace TransactionFeatureExtractor

/-- Value-level equality of two `Q` numbers (JavaScript `===` compares
numeric values, not representations). -/
def qValEq (a b : Q) : Bool := a.num * b.den = b.num * a.den

/-- `amount % 1 === 0` for a parsed amount (`none` is NaN, never equal). -/
def isWholeNumber : Option Q → Bool
  | none => false
  | some q => q.den ≠ 0 && q.num % q.den = 0

/-- `amount % 100 === 0`. -/
def isMultipleOf100 : Option Q → Bool
  | none => false
  | some q => q.den ≠ 0 && q.num % (100 * q.den) = 0

/-- Numeric `a <= b` where `a` may be NaN (`none`), which fails every
comparison. -/
def leNum (a : Option Q) (b : Q) : Bool :=
  match a with
  | none => false
  | some q => Q.ble q b

/-- `getAmountRange` with the `AMOUNT_THRESHOLDS` constants. -/
def getAmountRange (amount : Option Q) : String :=
  if leNum amount ⟨100, 1⟩ then "very_small"
  else if leNum amount ⟨1000, 1⟩ then "small"
  else if leNum amount ⟨10000, 1⟩ then "medium"
  else if leNum amount ⟨100000, 1⟩ then "large"
  else "very_large"

/-- `isCommonAmount`: membership in the fixed list (by numeric value) or
a multiple of 100. -/
def isCommonAmount (amount : Option Q) : Bool :=
  match amount with
  | none => false
  | some q =>
      ([10, 20, 50, 100, 500, 1000] : List Int).any (fun n => qValEq q ⟨n, 1⟩) ||
      isMultipleOf100 (some q)

/-- `extractDescriptionFeatures`: one feature per token (weight 1) and one
per adjacent token pair (weight 1.2). -/
def extractDescriptionFeatures (description : String) : List Feature :=
  let words := TextProcessor.processText description
  let single := words.map (fun w => Feature.mk "description_word" w ⟨1, 1⟩)
  let pairs := (words.zip words.tail).map
    (fun p => Feature.mk "description_word_pair" (p.1 ++ "_" ++ p.2) ⟨12, 10⟩)
  single ++ pairs

/-- `extractAmountFeatures`: the parsed amount of the debit entry (0 when
there is no debit entry, NaN when the string does not parse). -/
def extractAmountFeatures (tx : Transaction) : List Feature :=
  let amount : Option Q :=
    match tx.entries.find? (fun e => e.type = .debit) with
    | some e => parseFloat e.amount
    | none => some ⟨0, 1⟩
  let base := [Feature.mk "amount_range" (getAmountRange amount) ⟨1, 1⟩]
  let base := if isWholeNumber amount then
      base ++ [Feature.mk "amount_type" "whole_number" ⟨12, 10⟩] else base
  if isCommonAmount amount then
    base ++ [Feature.mk "amount_type" "common_amount" ⟨15, 10⟩] else base

/-- Character-level `String.prototype.trim` (whitespace at both ends). -/
def jsTrim (l : List Char) : List Char :=
  ((l.dropWhile (fun c => TextProcessor.wsChar c)).reverse.dropWhile
    (fun c => TextProcessor.wsChar c)).reverse

/-- Substring test on character lists. -/
def containsSub : List Char → List Char → Bool
  | _, [] => true
  | [], _ :: _ => false
  | c :: rest, sub => sub.isPrefixOf (c :: rest) || containsSub rest sub

/-- `detectVendorTypes`: the five keyword regexes.  The first two are
suffix-anchored, the rest are substring tests; the input is already
lowercased. -/
def detectVendorTypes (vendor : List Char) : List String :=
  let suffixAny := fun (pats : List String) =>
    pats.any (fun p => p.data.isSuffixOf vendor)
  let subAny := fun (pats : List String) =>
    pats.any (fun p => containsSub vendor p.data)
  let t1 := if suffixAny ["inc", "corp", "ltd", "llc"] then ["company"] else []
  let t2 := if suffixAny ["store", "shop", "mart", "market"] then ["retail"] else []
  let t3 := if subAny ["bank", "credit union", "financial"] then ["financial"] else []
  let t4 := if subAny ["restaurant", "cafe", "diner"] then ["food_service"] else []
  let t5 := if subAny ["service", "consulting", "professional"] then ["service"] else []
  t1 ++ t2 ++ t3 ++ t4 ++ t5

/-- `extractVendorFeatures`: the normalized vendor string plus one feature
per detected vendor type. -/
def extractVendorFeatures (vendor : String) : List Feature :=
  let normalized := jsTrim (vendor.data.map Char.toLower)
  Feature.mk "vendor" (String.mk normalized) ⟨1, 1⟩ ::
    (detectVendorTypes normalized).map (fun t => Feature.mk "vendor_type" t ⟨12, 10⟩)

/-- `extractDateFeatures`: day-of-week and day-of-month (value `NaN` on an
Invalid Date), plus `month_boundary` and `weekend` flags. -/
def extractDateFeatures (date : String) : List Feature :=
  match parseIsoDate date with
  | none =>
      [Feature.mk "day_of_week" "NaN" ⟨1, 1⟩, Feature.mk "day_of_month" "NaN" ⟨1, 1⟩]
  | some d =>
      let dow := dayOfWeek d
      let base := [Feature.mk "day_of_week" (natToString dow) ⟨1, 1⟩,
                   Feature.mk "day_of_month" (natToString d.day) ⟨1, 1⟩]
      let base := if d.day = 1 ∨ d.day = daysInMonth d.year d.month then
          base ++ [Feature.mk "date_type" "month_boundary" ⟨15, 10⟩] else base
      if dow = 0 ∨ dow = 6 then
        base ++ [Feature.mk "date_type" "weekend" ⟨12, 10⟩] else base

/-- `extractFeatures`: the five groups in order.  Each group's features
are mapped through `{ ...f, weight: <group weight> }`, which overwrites
the within-group weight set by the group extractor. -/
def extractFeatures (tx : Transaction) : List Feature :=
  let descriptionFeatures :=
    (extractDescriptionFeatures tx.description).map (fun f => { f with weight := ⟨35, 100⟩ })
  let amountFeatures :=
    (extractAmountFeatures tx).map (fun f => { f with weight := ⟨25, 100⟩ })
  let vendorFeatures :=
    match tx.customerName with
    | some v => (extractVendorFeatures v).map (fun f => { f with weight := ⟨20, 100⟩ })
    | none => []
  let dateFeatures :=
    (extractDateFeatures tx.date).map (fun f => { f with weight := ⟨15, 100⟩ })
  let typeFeature :=
    [Feature.mk "transaction_type"
      (match tx.entries with
       | e :: _ => e.type.render
       | [] => "unknown") ⟨5, 100⟩]
  descriptionFeatures ++ amountFeatures ++ vendorFeatures ++ dateFeatures ++ typeFeature

end TransactionFeatureExtractor

/-! ## AccountMatcher (`accountMatcher.ts`) -/

namespace AccountMatcher

/-- The matcher's module state after `initialize(accounts, standard)`. -/
structure State where
  accounts : List Account
  standard : Option AccountingStandard
  accountPatterns : List (String × List String)
deriving Repr

/-- Split on the `/[\s-_]+/` separators used by `extractAccountPatterns`. -/
def splitSep (l : List Char) : List String :=
  ((l.splitOnP (fun c => TextProcessor.wsChar c || c = '-' || c = '_')).map
    String.mk)

/-- `extractAccountPatterns`: an insertion-ordered set of the lowercased
code, name tokens, description tokens, type and subtype.  The JavaScript
`split` keeps empty fragments, and a `Set` deduplicates while keeping
first-insertion order. -/
def extractAccountPatterns (account : Account) : List String :=
  let pieces :=
    [String.mk (account.code.data.map Char.toLower)] ++
    splitSep (account.name.data.map Char.toLower) ++
    (match account.description with
     | some d => splitSep (d.data.map Char.toLower)
     | none => []) ++
    [account.type, account.subtype]
  pieces.foldl (fun acc p => if acc.contains p then acc else acc ++ [p]) []

/-- `initialize(accounts, standard)`. -/
def initState (accounts : List Account) (standard : AccountingStandard) : State :=
  { accounts := accounts
    standard := some standard
    accountPatterns :=
      accounts.foldl (fun m a => jsMapSet m a.id (extractAccountPatterns a)) [] }

/-- `findExactMatch`: first active account whose code equals the entry's
account number. -/
def findExactMatch (st : State) (accountNumber : String) : Option Account :=
  st.accounts.find? (fun a => a.code = accountNumber && a.isActive)

/-- Strip non-digits, then strip leading zeros
(`replace(/\D/g, '').replace(/^0+/, '')`). -/
def normalizeCode (s : String) : List Char :=
  (s.data.filter Char.isDigit).dropWhile (fun c => c = '0')

/-- `findFuzzyCodeMatch`: first active account whose normalized code
equals the normalized input.  Note that an input which normalizes to the
empty string is compared like any other. -/
def findFuzzyCodeMatch (st : State) (accountNumber : String) : Option Account :=
  let normalizedInput := normalizeCode accountNumber
  st.accounts.find? (fun a => normalizeCode a.code = normalizedInput && a.isActive)

/-- `getAmountRangeScore` with the per-type threshold table;
`amount = none` is NaN and fails every `<=`. -/
def getAmountRangeScore (amount : Option Q) (accountType : String) : Q :=
  let pick := fun (small medium large : Int) =>
    if TransactionFeatureExtractor.leNum amount ⟨small, 1⟩ then (⟨1, 1⟩ : Q)
    else if TransactionFeatureExtractor.leNum amount ⟨medium, 1⟩ then ⟨8, 10⟩
    else if TransactionFeatureExtractor.leNum amount ⟨large, 1⟩ then ⟨6, 10⟩
    else ⟨4, 10⟩
  if accountType = "asset" ∨ accountType = "liability" then pick 1000 10000 100000
  else if accountType = "expense" ∨ accountType = "revenue" then pick 100 1000 10000
  else ⟨5, 10⟩

/-- The per-account scoring callback of `findDescriptionMatch`: 40%
pattern overlap, 30% lexical similarity, 20% sign-convention fit, 10%
amount range.  The similarity term calls
`similarityCalculator.calculateSimilarity` — the numeric-vector method —
with two strings, which always throws. -/
def scoreAccount (st : State) (processed : List String) (description : String)
    (entryType : EntryType) (amount : Option Q) (account : Account) :
    Except JsErr (Account × Q) := do
  let patterns := (st.accountPatterns.lookup account.id).getD []
  let matching := patterns.filter (fun p => processed.contains p)
  let patScore :=
    Q.mul (Q.div (Q.ofNat matching.length) (Q.ofNat patterns.length)) ⟨4, 10⟩
  let sim ← SimilarityCalculator.calculateSimilarity
    (.str description)
    (.str (account.name ++ " " ++ account.description.getD ""))
  let s := Q.add patScore (Q.mul sim ⟨3, 10⟩)
  let s :=
    match st.standard with
    | some std =>
        match std.signConventions.lookup account.type with
        | some conv =>
            if conv.normalBalance = entryType then Q.add s ⟨2, 10⟩ else s
        | none => s
    | none => s
  let s := Q.add s (Q.mul (getAmountRangeScore amount account.type) ⟨1, 10⟩)
  pure (account, s)

/-- `findDescriptionMatch`: scores every active account, sorts descending
and takes the best score above `0.6`.  Because `scoreAccount` always
throws on its similarity call, the scan fails as soon as one active
account exists. -/
def findDescriptionMatch (st : State) (description : String)
    (entryType : EntryType) (amount : Option Q) :
    Except JsErr (Option Account) := do
  let processed := TextProcessor.processText description
  let scored ← mapE (scoreAccount st processed description entryType amount)
    (st.accounts.filter (fun a => a.isActive))
  let sorted := stableSort (fun a b => Q.blt b.2 a.2) scored
  match sorted with
  | [] => pure none
  | (a, s) :: _ => pure (if Q.blt ⟨6, 10⟩ s then some a else none)

/-- `validateAccountMatch`: with no standard everything passes; with no
sign convention for the account type the match is rejected (logged as
`MissingSignConvention`, not thrown); otherwise the entry type must equal
the normal balance. -/
def validateAccountMatch (st : State) (account : Account)
    (entry : TransactionEntry) : Bool :=
  match st.standard with
  | none => true
  | some std =>
      match std.signConventions.lookup account.type with
      | none => false
      | some conv => conv.normalBalance = entry.type

/-- The body of `findMatchingAccount` up to its `try`: exact, then fuzzy,
then description match, each validated against the sign convention. -/
def findMatchingAccountBody (st : State) (entry : TransactionEntry)
    (tx : Transaction) : Except JsErr (Option Account) := do
  match findExactMatch st entry.accountNumber with
  | some a => pure (if validateAccountMatch st a entry then some a else none)
  | none =>
    match findFuzzyCodeMatch st entry.accountNumber with
    | some a => pure (if validateAccountMatch st a entry then some a else none)
    | none => do
      match ← findDescriptionMatch st tx.description entry.type
          (parseFloat entry.amount) with
      | some a => pure (if validateAccountMatch st a entry then some a else none)
      | none => pure none

/-- `findMatchingAccount`: the body's exceptions are caught and logged,
returning `undefined`. -/
def findMatchingAccount (st : State) (entry : TransactionEntry)
    (tx : Transaction) : Option Account :=
  match findMatchingAccountBody st entry tx with
  | .ok r => r
  | .error _ => none

end AccountMatcher

/-! ## AccountPatternBuilder (`accountPatternBuilder.ts`) -/

namespace AccountPatternBuilder

/-- A derived per-account pattern. -/
structure AccountPattern where
  code : String
  type : String
  keywords : List String
  description : String
  vector : List Nat
deriving DecidableEq, Repr

/-- The builder's module state after `buildPatterns(accounts)`. -/
structure State where
  patterns : List (String × AccountPattern)
  vocabulary : List String
deriving Repr

/-- The text `name description type subtype` used for both the
vocabulary and the per-account pattern. -/
def accountText (a : Account) : String :=
  a.name ++ " " ++ a.description.getD "" ++ " " ++ a.type ++ " " ++ a.subtype

/-- `buildPatterns(accounts)`: vocabulary first, then one pattern per
account. -/
def buildPatterns (accounts : List Account) : State :=
  let vocabulary := TextProcessor.buildVocabulary (accounts.map accountText)
  { vocabulary := vocabulary
    patterns := accounts.foldl
      (fun m a =>
        let text := accountText a
        jsMapSet m a.id
          ⟨a.code, a.type, TextProcessor.extractKeyPhrases text, text,
           TextProcessor.createVector text vocabulary⟩)
      [] }

/-- `findSimilarAccounts(text, type?, limit)`: vectorizes the query, then
calls `textProcessor.calculateSimilarity` — the lexical, string-based
method — on two numeric vectors, which throws a `TypeError` as soon as one
stored pattern passes the type filter. -/
def findSimilarAccounts (st : State) (text : String)
    (type : Option String) (limit : Nat) :
    Except JsErr (List (String × Q)) := do
  let inputVector := TextProcessor.createVector text st.vocabulary
  let similarities ← mapE
    (fun p => do
      let s ← TextProcessor.calculateSimilarity (.vec inputVector) (.vec p.2.vector)
      pure (p.1, s))
    (st.patterns.filter
      (fun p => match type with
                | none => true
                | some t => p.2.type = t))
  pure (((stableSort (fun a b => Q.blt b.2 a.2) similarities).take limit))

end AccountPatternBuilder

/-! ## TransactionPatternMatcher (`transactionPatternMatcher.ts`) -/

/-- A ranked candidate returned by the pattern matcher. -/
structure PatternMatch where
  accountId : String
  confidence : Q
  reason : String
deriving DecidableEq, Repr

namespace TransactionPatternMatcher

/-- The learned tables: normalized description → last confirmed pair,
normalized vendor → last confirmed pair, account id → usage count. -/
structure State where
  historicalPatterns : List (String × String × String)
  vendorPatterns : List (String × String × String)
  accountUsageFrequency : List (String × Nat)
deriving Repr

/-- `initialize()`: clears all three tables. -/
def emptyState : State := ⟨[], [], []⟩

/-- `normalizeText`: lowercase then trim. -/
def normalizeText (text : String) : String :=
  String.mk (TransactionFeatureExtractor.jsTrim (text.data.map Char.toLower))

/-- `incrementAccountUsage`. -/
def incrementAccountUsage (m : List (String × Nat)) (accountId : String) :
    List (String × Nat) :=
  jsMapSet m accountId ((m.lookup accountId).getD 0 + 1)

/-- `learnFromTransaction(transaction, debitAccountId, creditAccountId)`:
last-write-wins on the description table, on the vendor table when a
vendor is present, and two usage increments. -/
def learnFromTransaction (st : State) (tx : Transaction)
    (debitAccountId creditAccountId : String) : State :=
  let pair := (debitAccountId, creditAccountId)
  let hist := jsMapSet st.historicalPatterns (normalizeText tx.description) pair
  let st := { st with historicalPatterns := hist }
  let st :=
    match tx.customerName with
    | some v =>
        let vend := jsMapSet st.vendorPatterns (normalizeText v) pair
        { st with vendorPatterns := vend }
    | none => st
  let usage := incrementAccountUsage st.accountUsageFrequency debitAccountId
  let usage := incrementAccountUsage usage creditAccountId
  { st with accountUsageFrequency := usage }

/-- `findHistoricalMatch`. -/
def findHistoricalMatch (st : State) (tx : Transaction) :
    Option (String × String) :=
  st.historicalPatterns.lookup (normalizeText tx.description)

/-- `findVendorMatch`. -/
def findVendorMatch (st : State) (tx : Transaction) :
    Option (String × String) :=
  match tx.customerName with
  | none => none
  | some v => st.vendorPatterns.lookup (normalizeText v)

/-- `findSimilarDescriptionMatches`: for every stored description, calls
`similarityCalculator.calculateSimilarity` — the numeric-vector method —
with two strings.  The call throws for every string pair (the wrapper's
length guard or the library's array validation), so the scan fails on the
first stored pattern; with an empty table it returns no candidates. -/
def findSimilarDescriptionMatches (st : State) (tx : Transaction) :
    Except JsErr (List PatternMatch × List PatternMatch) :=
  st.historicalPatterns.foldlM
    (fun (acc : List PatternMatch × List PatternMatch) p => do
      let similarity ← SimilarityCalculator.calculateSimilarity
        (.str tx.description) (.str p.1)
      if Q.blt ⟨7, 10⟩ similarity then
        pure (acc.1 ++ [⟨p.2.1, Q.mul similarity ⟨85, 100⟩, "Similar description match"⟩],
              acc.2 ++ [⟨p.2.2, Q.mul similarity ⟨85, 100⟩, "Similar description match"⟩])
      else
        pure acc)
    ([], [])

/-- `getFrequencyBasedMatches`: the five most-used accounts, scored
`0.5 + frequency / (2 * historical table size)`.  (The `accounts`
parameter of the source is unused; the orchestrator does not even pass
it.) -/
def getFrequencyBasedMatches (st : State) : List PatternMatch :=
  let sorted := (stableSort (fun a b => b.2 < a.2) st.accountUsageFrequency).take 5
  sorted.map (fun p =>
    ⟨p.1,
     Q.add ⟨1, 2⟩ (Q.div (Q.ofNat p.2) (Q.ofNat (st.historicalPatterns.length * 2))),
     "Frequently used account"⟩)

/-- `findMatches(transaction)`: exact historical hit (0.95), vendor hit
(0.9), similar descriptions, frequency suggestions.  The steps push into
one results object; when the similar-description scan throws, the `catch`
returns the results accumulated so far. -/
def findMatches (st : State) (tx : Transaction) :
    List PatternMatch × List PatternMatch :=
  let r1 : List PatternMatch × List PatternMatch :=
    match findHistoricalMatch st tx with
    | some p => ([⟨p.1, ⟨95, 100⟩, "Historical pattern match"⟩],
                 [⟨p.2, ⟨95, 100⟩, "Historical pattern match"⟩])
    | none => ([], [])
  let r2 :=
    match findVendorMatch st tx with
    | some p => (r1.1 ++ [⟨p.1, ⟨9, 10⟩, "Vendor pattern match"⟩],
                 r1.2 ++ [⟨p.2, ⟨9, 10⟩, "Vendor pattern match"⟩])
    | none => r1
  match findSimilarDescriptionMatches st tx with
  | .error _ => r2
  | .ok similar =>
      let r3 := (r2.1 ++ similar.1, r2.2 ++ similar.2)
      let freq := getFrequencyBasedMatches st
      (r3.1 ++ freq, r3.2 ++ freq)

end TransactionPatternMatcher

/-! ## RAGMapper (`ragMapper.ts`) -/

namespace RAGMapper

/-- The mapper's module state after `initialize(accounts, standard)`. -/
structure State where
  accounts : List Account
  standard : Option AccountingStandard
  accountEmbeddings : List (String × List Nat)
  vocabulary : List String
deriving Repr

/-- The text `name description type subtype` used for the vocabulary and
the account embeddings. -/
def accountText (a : Account) : String :=
  a.name ++ " " ++ a.description.getD "" ++ " " ++ a.type ++ " " ++ a.subtype

/-- `initialize(accounts, standard)`: vocabulary from the account texts,
then one embedding per account. -/
def initState (accounts : List Account) (standard : AccountingStandard) : State :=
  let vocabulary := TextProcessor.buildVocabulary (accounts.map accountText)
  { accounts := accounts
    standard := some standard
    vocabulary := vocabulary
    accountEmbeddings := accounts.foldl
      (fun m a => jsMapSet m a.id (TextProcessor.createVector (accountText a) vocabulary))
      [] }

/-- `createTransactionEmbedding`: description, vendor and the rendered
`type:value` feature tokens, joined with spaces, vectorized over the
mapper's vocabulary. -/
def createTransactionEmbedding (st : State) (tx : Transaction)
    (features : List Feature) : List Nat :=
  let text := String.intercalate " "
    ([tx.description, tx.customerName.getD ""] ++
     features.map (fun f => f.type ++ ":" ++ f.value))
  TextProcessor.createVector text st.vocabulary

/-- `getSignConventionBoost`: 1.2 when the debit amount's sign matches
the normal balance, 0.8 otherwise (NaN amounts fail both comparisons). -/
def getSignConventionBoost (normalBalance : EntryType) (amount : Option Q) : Q :=
  let pos := match amount with
             | some q => Q.blt ⟨0, 1⟩ q
             | none => false
  let neg := match amount with
             | some q => Q.blt q ⟨0, 1⟩
             | none => false
  if (pos && normalBalance == .debit) || (neg && normalBalance == .credit) then
    (⟨12, 10⟩ : Q)
  else ⟨8, 10⟩

/-- Does the account have a sign convention whose normal balance is
`side`?  (`isValidDebitAccount` / `isValidCreditAccount`.) -/
def isValidSide (st : State) (account : Option Account) (side : EntryType) : Bool :=
  match st.standard, account with
  | some std, some a =>
      match std.signConventions.lookup a.type with
      | some conv => conv.normalBalance = side
      | none => false
  | _, _ => false

/-- The `scores` callback of `findBestMatches`: cosine similarity of the
transaction embedding against one account embedding, boosted by the sign
convention when the account and a convention for its type exist. -/
def scoreOne (st : State) (transactionEmbedding : List Nat)
    (de : TransactionEntry) (p : String × List Nat) :
    Except JsErr (Option Account × Q) := do
  let similarity ← SimilarityCalculator.calculateSimilarity
    (.vec transactionEmbedding) (.vec p.2)
  let account := st.accounts.find? (fun a => a.id = p.1)
  match account, st.standard with
  | some a, some std =>
      (match std.signConventions.lookup a.type with
       | some conv =>
           pure (some a,
             Q.mul similarity
               (getSignConventionBoost conv.normalBalance (parseFloat de.amount)))
       | none => pure (some a, similarity))
  | _, _ => pure (account, (⟨0, 1⟩ : Q))

/-- `findBestMatches`: similarity of the transaction embedding against
every account embedding (boosted by the sign convention), sorted
descending; the best debit-normal account, the best credit-normal account
other than it, and the min of their scores. -/
def findBestMatches (st : State) (transactionEmbedding : List Nat)
    (tx : Transaction) : Except JsErr MappingResult := do
  let debitEntry := tx.entries.find? (fun e => e.type = .debit)
  let creditEntry := tx.entries.find? (fun e => e.type = .credit)
  match debitEntry, creditEntry with
  | some de, some _ => do
      let scores ← mapE (scoreOne st transactionEmbedding de) st.accountEmbeddings
      let sorted := stableSort (fun a b => Q.blt b.2 a.2) scores
      let bestDebit := sorted.find? (fun s => isValidSide st s.1 .debit)
      let bestCredit := sorted.find? (fun s =>
        (match bestDebit with
         | some bd => decide (s.1 ≠ bd.1)
         | none => decide (s.1 ≠ none)) && isValidSide st s.1 .credit)
      match bestDebit, bestCredit with
      | some bd, some bc =>
          match bd.1, bc.1 with
          | some da, some ca =>
              pure ⟨some da.toJs, some ca.toJs, Q.jsMin bd.2 bc.2⟩
          | _, _ => pure MappingResult.zero
      | _, _ => pure MappingResult.zero
  | _, _ => pure MappingResult.zero

/-- `mapTransaction`: extract features, embed, match; any exception is
caught and converted to `{ confidence: 0 }`. -/
def mapTx (st : State) (tx : Transaction) : MappingResult :=
  let features := TransactionFeatureExtractor.extractFeatures tx
  let transactionEmbedding := createTransactionEmbedding st tx features
  match findBestMatches st transactionEmbedding tx with
  | .ok r => r
  | .error _ => MappingResult.zero

end RAGMapper

/-! ## MappingOrchestrator (`mappingOrchestrator.ts`) -/

namespace MappingOrchestrator

/-- The orchestrator's module state together with the stage singletons it
drives. -/
structure State where
  initialized : Bool
  rag : RAGMapper.State
  am : AccountMatcher.State
  tpm : TransactionPatternMatcher.State
  apb : AccountPatternBuilder.State
deriving Repr

/-- The module singletons before any `initialize` call. -/
def initialState : State :=
  { initialized := false
    rag := ⟨[], none, [], []⟩
    am := ⟨[], none, []⟩
    tpm := TransactionPatternMatcher.emptyState
    apb := ⟨[], []⟩ }

/-- `initialize(accounts, standard)` followed by a sequence of
`learnFromTransaction(tx, debitId, creditId)` calls on the pattern
matcher: exactly the states reachable before some `mapTransaction`
call. -/
def mkState (accounts : List Account) (standard : AccountingStandard)
    (learns : List (Transaction × String × String)) : State :=
  { initialized := true
    rag := RAGMapper.initState accounts standard
    am := AccountMatcher.initState accounts standard
    tpm := learns.foldl
      (fun s l => TransactionPatternMatcher.learnFromTransaction s l.1 l.2.1 l.2.2)
      TransactionPatternMatcher.emptyState
    apb := AccountPatternBuilder.buildPatterns accounts }

/-- `tryPatternMatching`: head of each candidate list, id-only stub
accounts, min of the two head confidences; `{ confidence: 0 }` when
either list is empty.  (`findMatches` never throws, so the `catch` branch
is dead.) -/
def tryPatternMatching (st : State) (tx : Transaction) : MappingResult :=
  let found := TransactionPatternMatcher.findMatches st.tpm tx
  match found.1, found.2 with
  | bestDebit :: _, bestCredit :: _ =>
      ⟨some (JsAccount.stub bestDebit.accountId),
       some (JsAccount.stub bestCredit.accountId),
       Q.jsMin bestDebit.confidence bestCredit.confidence⟩
  | _, _ => MappingResult.zero

/-- The body of `tryAccountMatching` up to its `try`: throws
`MalformedTransaction` when a debit or credit entry is missing, then
matches both entries independently and accepts with fixed confidence 0.6
only when both resolve. -/
def tryAccountMatchingBody (st : State) (tx : Transaction) :
    Except JsErr MappingResult := do
  let debitEntry := tx.entries.find? (fun e => e.type = .debit)
  let creditEntry := tx.entries.find? (fun e => e.type = .credit)
  match debitEntry, creditEntry with
  | some de, some ce =>
      (match AccountMatcher.findMatchingAccount st.am de tx,
             AccountMatcher.findMatchingAccount st.am ce tx with
       | some da, some ca => pure ⟨some da.toJs, some ca.toJs, ⟨6, 10⟩⟩
       | _, _ => pure MappingResult.zero)
  | _, _ => throw .malformedTransaction

/-- `tryAccountMatching`: the body's exception is caught, logged and
converted to `{ confidence: 0 }`. -/
def tryAccountMatching (st : State) (tx : Transaction) : MappingResult :=
  match tryAccountMatchingBody st tx with
  | .ok r => r
  | .error _ => MappingResult.zero

/-- `mapTransaction(transaction, accounts)`: throws `NotInitialized`
before `initialize`, then runs the cascade with thresholds 0.8, 0.7 and 0.
Every stage is total (each catches its own failures), so an initialized
orchestrator always returns a result. -/
def mapTransaction (st : State) (tx : Transaction) :
    Except JsErr MappingResult :=
  if ¬ st.initialized then .error .notInitialized
  else
    let ragResult := RAGMapper.mapTx st.rag tx
    if Q.blt ⟨8, 10⟩ ragResult.confidence then .ok ragResult
    else
      let patternResult := tryPatternMatching st tx
      if Q.blt ⟨7, 10⟩ patternResult.confidence then .ok patternResult
      else
        let matchResult := tryAccountMatching st tx
        if Q.blt ⟨0, 1⟩ matchResult.confidence then .ok matchResult
        else .ok MappingResult.zero

/-- Transcribed from the specification's description of the cascade
(claim C1): accept the RAG result iff its confidence exceeds 0.8;
otherwise accept the pattern result — min of the best debit and credit
candidate confidences, formed only when both candidate lists are
non-empty — iff it exceeds 0.7; otherwise accept the account-matcher
result with fixed confidence 0.6 iff both entries resolve to an account;
otherwise return confidence 0. -/
def specCascade (st : State) (tx : Transaction) : MappingResult :=
  let ragResult := RAGMapper.mapTx st.rag tx
  if Q.blt ⟨8, 10⟩ ragResult.confidence then ragResult
  else
    let found := TransactionPatternMatcher.findMatches st.tpm tx
    let patternAccept :=
      match found.1, found.2 with
      | bestDebit :: _, bestCredit :: _ =>
          let c := Q.jsMin bestDebit.confidence bestCredit.confidence
          if Q.blt ⟨7, 10⟩ c then
            some (⟨some (JsAccount.stub bestDebit.accountId),
                   some (JsAccount.stub bestCredit.accountId), c⟩ : MappingResult)
          else none
      | _, _ => none
    match patternAccept with
    | some r => r
    | none =>
        let debitEntry := tx.entries.find? (fun e => e.type = .debit)
        let creditEntry := tx.entries.find? (fun e => e.type = .credit)
        match debitEntry, creditEntry with
        | some de, some ce =>
            (match AccountMatcher.findMatchingAccount st.am de tx,
                   AccountMatcher.findMatchingAccount st.am ce tx with
             | some da, some ca => ⟨some da.toJs, some ca.toJs, ⟨6, 10⟩⟩
             | _, _ => MappingResult.zero)
        | _, _ => MappingResult.zero

end MappingOrchestrator

/-! ## Helper lemmas -/

theorem jsMapSet_ne_nil {β : Type} (m : List (String × β)) (k : String) (v : β) :
    jsMapSet m k v ≠ [] := by
  unfold jsMapSet
  split
  · next h =>
      cases m with
      | nil => simp [List.lookup] at h
      | cons p rest => simp
  · simp

theorem strSim_error (a b : String) :
    ∃ e, SimilarityCalculator.calculateSimilarity (.str a) (.str b) = .error e := by
  by_cases h : a.length ≠ b.length
  · refine ⟨.lengthMismatch, ?_⟩
    show (if a.length ≠ b.length then (Except.error JsErr.lengthMismatch : Except JsErr Q)
          else Except.error JsErr.typeError) = Except.error JsErr.lengthMismatch
    rw [if_pos h]
  · refine ⟨.typeError, ?_⟩
    show (if a.length ≠ b.length then (Except.error JsErr.lengthMismatch : Except JsErr Q)
          else Except.error JsErr.typeError) = Except.error JsErr.typeError
    rw [if_neg h]

namespace TransactionPatternMatcher

theorem findSimilar_error (st : State) (tx : Transaction)
    (h : st.historicalPatterns ≠ []) :
    ∃ e, findSimilarDescriptionMatches st tx = .error e := by
  unfold findSimilarDescriptionMatches
  cases hh : st.historicalPatterns with
  | nil => exact absurd hh h
  | cons p rest =>
      rcases strSim_error tx.description p.1 with ⟨e, he⟩
      refine ⟨e, ?_⟩
      rw [List.foldlM_cons]
      show (do
        let similarity ← SimilarityCalculator.calculateSimilarity
          (.str tx.description) (.str p.1)
        if Q.blt ⟨7, 10⟩ similarity then
          pure ((([] : List PatternMatch) ++ [⟨p.2.1, Q.mul similarity ⟨85, 100⟩, "Similar description match"⟩],
                ([] : List PatternMatch) ++ [⟨p.2.2, Q.mul similarity ⟨85, 100⟩, "Similar description match"⟩]))
        else
          pure (([] : List PatternMatch), ([] : List PatternMatch))) >>= _ = Except.error e
      rw [he]
      rfl

theorem findSimilar_nil (st : State) (tx : Transaction)
    (h : st.historicalPatterns = []) :
    findSimilarDescriptionMatches st tx = .ok ([], []) := by
  unfold findSimilarDescriptionMatches
  rw [h]
  rfl

theorem learn_hist_ne (st : State) (tx : Transaction) (d c : String) :
    (learnFromTransaction st tx d c).historicalPatterns ≠ [] := by
  unfold learnFromTransaction
  cases tx.customerName <;>
    simpa using jsMapSet_ne_nil st.historicalPatterns (normalizeText tx.description) (d, c)

/-- The three learned tables of a reachable pattern-matcher state: an
empty historical table means no learning has happened at all. -/
def Reachable (st : State) : Prop :=
  st.historicalPatterns = [] →
    st.vendorPatterns = [] ∧ st.accountUsageFrequency = []

theorem reachable_fold (learns : List (Transaction × String × String)) :
    Reachable (learns.foldl
      (fun s l => learnFromTransaction s l.1 l.2.1 l.2.2) emptyState) := by
  cases learns with
  | nil =>
      intro _
      exact ⟨rfl, rfl⟩
  | cons l ls =>
      have key : ∀ (ls : List (Transaction × String × String)) (st : State),
          st.historicalPatterns ≠ [] →
          (ls.foldl (fun s l => learnFromTransaction s l.1 l.2.1 l.2.2) st).historicalPatterns ≠ [] := by
        intro ls
        induction ls with
        | nil => intro st h; exact h
        | cons x xs ih =>
            intro st _
            exact ih _ (learn_hist_ne st x.1 x.2.1 x.2.2)
      intro hemp
      exfalso
      have h1 : ((l :: ls).foldl
          (fun s l => learnFromTransaction s l.1 l.2.1 l.2.2) emptyState).historicalPatterns ≠ [] := by
        rw [List.foldl_cons]
        exact key ls _ (learn_hist_ne emptyState l.1 l.2.1 l.2.2)
      exact h1 hemp

theorem findMatches_conf (st : State) (tx : Transaction) (hr : Reachable st) :
    ∀ pm : PatternMatch,
      (pm ∈ (findMatches st tx).1 ∨ pm ∈ (findMatches st tx).2) →
      pm.confidence = ⟨95, 100⟩ ∨ pm.confidence = ⟨9, 10⟩ := by
  intro pm hpm
  unfold findMatches at hpm
  by_cases hh : st.historicalPatterns = []
  · rcases hr hh with ⟨hv, hu⟩
    have h1 : findHistoricalMatch st tx = none := by
      unfold findHistoricalMatch
      rw [hh]
      rfl
    have h2 : findVendorMatch st tx = none := by
      unfold findVendorMatch
      cases tx.customerName with
      | none => rfl
      | some v => rw [hv]; rfl
    rw [h1, h2, findSimilar_nil st tx hh] at hpm
    have h3 : getFrequencyBasedMatches st = [] := by
      unfold getFrequencyBasedMatches
      rw [hu]
      rfl
    rw [h3] at hpm
    simp at hpm
  · rcases findSimilar_error st tx hh with ⟨e, he⟩
    rw [he] at hpm
    rcases hhist : findHistoricalMatch st tx with _ | p <;>
        rcases hvend : findVendorMatch st tx with _ | q <;>
        rw [hhist, hvend] at hpm <;>
        rcases hpm with h | h <;>
        fin_cases h <;>
        first
          | (left; rfl)
          | (right; rfl)

end TransactionPatternMatcher

theorem Q.Bounded.mulConst {a : Q} {n d p q : Int} (h : a.Bounded n d)
    (hp : 0 ≤ p) (hq : 0 < q) : (Q.mul a ⟨p, q⟩).Bounded (n * p) (d * q) := by
  obtain ⟨hden, hnum, hle⟩ := h
  refine ⟨?_, ?_, ?_⟩
  · show 0 < a.den * q
    exact mul_pos hden hq
  · show 0 ≤ a.num * p
    exact mul_nonneg hnum hp
  show a.num * p * (d * q) ≤ n * p * (a.den * q)
  calc a.num * p * (d * q) = (a.num * d) * (p * q) := by ring
    _ ≤ (n * a.den) * (p * q) := by
        have hpq : 0 ≤ p * q := by positivity
        exact mul_le_mul_of_nonneg_right hle hpq
    _ = n * p * (a.den * q) := by ring

theorem Q.jsMin_bounds {a b : Q} {c : ℚ} (ha : a.PosDen) (hb : b.PosDen)
    (han : 0 ≤ a.toRat) (hbn : 0 ≤ b.toRat)
    (hc : a.toRat ≤ c ∨ b.toRat ≤ c) :
    0 ≤ (Q.jsMin a b).toRat ∧ (Q.jsMin a b).toRat ≤ c := by
  unfold Q.jsMin
  have ha0 : a.den ≠ 0 := ne_of_gt ha
  have hb0 : b.den ≠ 0 := ne_of_gt hb
  rw [if_neg ha0, if_neg hb0]
  by_cases h : Q.ble a b = true
  · rw [if_pos h]
    refine ⟨han, ?_⟩
    rcases hc with hc | hc
    · exact hc
    · exact le_trans ((Q.ble_iff a b ha hb).mp h) hc
  · rw [if_neg h]
    refine ⟨hbn, ?_⟩
    rcases hc with hc | hc
    · have hlt : b.toRat ≤ a.toRat := by
        by_contra hcon
        exact h ((Q.ble_iff a b ha hb).mpr (le_of_not_le hcon))
      exact le_trans hlt hc
    · exact hc

namespace SimilarityCalculator

theorem dotProduct_sq_le (v : List Nat) : ∀ w : List Nat,
    dotProduct v w ^ 2 ≤ dotProduct v v * dotProduct w w := by
  induction v with
  | nil => intro w; simp [dotProduct]
  | cons a v ih =>
      intro w
      cases w with
      | nil => simp [dotProduct]
      | cons x w =>
          have hD := ih w
          simp only [dotProduct, List.zipWith_cons_cons, List.sum_cons] at hD ⊢
          set D := (List.zipWith (· * ·) v w).sum with hDdef
          set S1 := (List.zipWith (· * ·) v v).sum with hS1
          set S2 := (List.zipWith (· * ·) w w).sum with hS2
          zify at hD ⊢
          have ha : (0 : Int) ≤ (a : Int) := by positivity
          have hx : (0 : Int) ≤ (x : Int) := by positivity
          have hDn : (0 : Int) ≤ (D : Int) := by positivity
          have hS1n : (0 : Int) ≤ (S1 : Int) := by positivity
          have hS2n : (0 : Int) ≤ (S2 : Int) := by positivity
          have key : 2 * ((a : Int) * x) * D ≤ (a : Int) ^ 2 * S2 + (x : Int) ^ 2 * S1 := by
            have hsq : (2 * ((a : Int) * x) * D) ^ 2 ≤
                ((a : Int) ^ 2 * S2 + (x : Int) ^ 2 * S1) ^ 2 := by
              nlinarith [sq_nonneg ((a : Int) ^ 2 * S2 - (x : Int) ^ 2 * S1), hD,
                mul_nonneg (mul_nonneg ha hx) (mul_nonneg ha hx)]
            have hrhs : (0 : Int) ≤ (a : Int) ^ 2 * S2 + (x : Int) ^ 2 * S1 := by positivity
            nlinarith [hsq, hrhs]
          nlinarith [hD, key]

/-- A cosine similarity over two genuine vectors is either the `NaN`
fraction `⟨0, 0⟩` (a non-empty zero-norm input) or a value in the unit
interval. -/
theorem calcSim_vec_cases (v w : List Nat) (s : Q)
    (h : calculateSimilarity (.vec v) (.vec w) = .ok s) :
    s = ⟨0, 0⟩ ∨ s.Bounded 1 1 := by
  replace h : (if v.length ≠ w.length then (Except.error JsErr.lengthMismatch : Except JsErr Q)
      else if v.isEmpty then Except.ok ⟨0, 1⟩
      else if dotProduct v v * dotProduct w w = 0 then Except.ok ⟨0, 0⟩
      else Except.ok ⟨(dotProduct v w : Int) * (dotProduct v w : Int),
        ((dotProduct v v * dotProduct w w : Nat) : Int)⟩) = .ok s := h
  by_cases hlen : v.length ≠ w.length
  · rw [if_pos hlen] at h
    cases h
  · rw [if_neg hlen] at h
    by_cases hemp : v.isEmpty = true
    · rw [if_pos hemp] at h
      cases h
      right
      exact ⟨by norm_num, by norm_num, by norm_num⟩
    · rw [if_neg hemp] at h
      by_cases hz : dotProduct v v * dotProduct w w = 0
      · rw [if_pos hz] at h
        cases h
        left
        rfl
      · rw [if_neg hz] at h
        cases h
        right
        have hcs := dotProduct_sq_le v w
        refine ⟨?_, ?_, ?_⟩
        · show (0 : Int) < ((dotProduct v v * dotProduct w w : Nat) : Int)
          have : 0 < dotProduct v v * dotProduct w w := Nat.pos_of_ne_zero hz
          exact_mod_cast this
        · show (0 : Int) ≤ (dotProduct v w : Int) * (dotProduct v w : Int)
          positivity
        · show (dotProduct v w : Int) * (dotProduct v w : Int) * 1 ≤
            1 * ((dotProduct v v * dotProduct w w : Nat) : Int)
          have : (dotProduct v w : Int) * (dotProduct v w : Int) ≤
              ((dotProduct v v * dotProduct w w : Nat) : Int) := by
            have h2 : (dotProduct v w) * (dotProduct v w) ≤
                dotProduct v v * dotProduct w w := by
              have := hcs
              nlinarith [hcs]
            exact_mod_cast h2
          linarith

end SimilarityCalculator

namespace RAGMapper

theorem boost_has_low_side (amt : Option Q) :
    getSignConventionBoost .debit amt = ⟨8, 10⟩ ∨
    getSignConventionBoost .credit amt = ⟨8, 10⟩ := by
  unfold getSignConventionBoost
  cases amt with
  | none => left; rfl
  | some q =>
      by_cases hp : Q.blt ⟨0, 1⟩ q = true
      · right
        have hn : Q.blt q ⟨0, 1⟩ = false := by
          unfold Q.blt at hp ⊢
          simp only [decide_eq_true_eq] at hp
          simp only [decide_eq_false_iff_not]
          omega
        simp [hp, hn]
      · left
        simp [hp]

theorem boost_cases (side : EntryType) (amt : Option Q) :
    getSignConventionBoost side amt = ⟨12, 10⟩ ∨
    getSignConventionBoost side amt = ⟨8, 10⟩ := by
  unfold getSignConventionBoost
  cases amt <;> dsimp only <;> split
  · left; rfl
  · right; rfl
  · left; rfl
  · right; rfl

theorem zero_conf_toRat : MappingResult.zero.confidence.toRat = 0 := by
  norm_num [MappingResult.zero, Q.toRat]

end RAGMapper

theorem except_bind_error {ε α β : Type} (e : ε) (f : α → Except ε β) :
    (Except.error e : Except ε α) >>= f = .error e := rfl

theorem mapE_cons_error {ε α β : Type} {f : α → Except ε β} {a : α} {l : List α}
    {e : ε} (h : f a = .error e) : mapE f (a :: l) = .error e := by
  unfold mapE
  rw [h]
  rfl

namespace AccountMatcher

theorem scoreAccount_error (st : State) (processed : List String)
    (description : String) (entryType : EntryType) (amount : Option Q)
    (account : Account) :
    ∃ e, scoreAccount st processed description entryType amount account = .error e := by
  rcases strSim_error description (account.name ++ " " ++ account.description.getD "")
    with ⟨e, he⟩
  refine ⟨e, ?_⟩
  unfold scoreAccount
  rw [he]
  rfl

theorem findDescriptionMatch_ok_none (st : State) (description : String)
    (entryType : EntryType) (amount : Option Q) (r : Option Account)
    (h : findDescriptionMatch st description entryType amount = .ok r) :
    r = none := by
  unfold findDescriptionMatch at h
  cases hf : st.accounts.filter (fun a => a.isActive) with
  | nil =>
      rw [hf] at h
      have h2 : (Except.ok (none : Option Account) : Except JsErr (Option Account)) = .ok r := h
      cases h2
      rfl
  | cons a rest =>
      rw [hf] at h
      dsimp only at h
      rcases scoreAccount_error st (TextProcessor.processText description)
        description entryType amount a with ⟨e, he⟩
      rw [mapE_cons_error he] at h
      cases h

theorem findMatchingAccount_cases (st : State) (entry : TransactionEntry)
    (tx : Transaction) (a : Account)
    (h : findMatchingAccount st entry tx = some a) :
    validateAccountMatch st a entry = true ∧
    (findExactMatch st entry.accountNumber = some a ∨
     (findExactMatch st entry.accountNumber = none ∧
      findFuzzyCodeMatch st entry.accountNumber = some a)) := by
  unfold findMatchingAccount findMatchingAccountBody at h
  cases hex : findExactMatch st entry.accountNumber with
  | some b =>
      rw [hex] at h
      have h2 : (if validateAccountMatch st b entry then some b else none) = some a := h
      by_cases hval : validateAccountMatch st b entry = true
      · rw [if_pos hval] at h2
        injection h2 with hba
        subst hba
        exact ⟨hval, Or.inl rfl⟩
      · rw [if_neg hval] at h2
        cases h2
  | none =>
      rw [hex] at h
      cases hfz : findFuzzyCodeMatch st entry.accountNumber with
      | some b =>
          rw [hfz] at h
          have h2 : (if validateAccountMatch st b entry then some b else none) = some a := h
          by_cases hval : validateAccountMatch st b entry = true
          · rw [if_pos hval] at h2
            injection h2 with hba
            subst hba
            exact ⟨hval, Or.inr ⟨rfl, rfl⟩⟩
          · rw [if_neg hval] at h2
            cases h2
      | none =>
          rw [hfz] at h
          cases hdm : findDescriptionMatch st tx.description entry.type
              (parseFloat entry.amount) with
          | error e2 =>
              rw [hdm] at h
              have h2 : (none : Option Account) = some a := h
              cases h2
          | ok r0 =>
              have hr0 : r0 = none :=
                findDescriptionMatch_ok_none st tx.description entry.type
                  (parseFloat entry.amount) r0 hdm
              subst hr0
              rw [hdm] at h
              have h2 : (none : Option Account) = some a := h
              cases h2

theorem findMatchingAccount_exact_invalid (st : State) (entry : TransactionEntry)
    (tx : Transaction) (b : Account)
    (hex : findExactMatch st entry.accountNumber = some b)
    (hval : validateAccountMatch st b entry = false) :
    findMatchingAccount st entry tx = none := by
  unfold findMatchingAccount findMatchingAccountBody
  rw [hex]
  show (if validateAccountMatch st b entry then some b else none) = none
  rw [hval]
  rfl

theorem findMatchingAccount_fuzzy_invalid (st : State) (entry : TransactionEntry)
    (tx : Transaction) (b : Account)
    (hex : findExactMatch st entry.accountNumber = none)
    (hfz : findFuzzyCodeMatch st entry.accountNumber = some b)
    (hval : validateAccountMatch st b entry = false) :
    findMatchingAccount st entry tx = none := by
  unfold findMatchingAccount findMatchingAccountBody
  rw [hex, hfz]
  show (if validateAccountMatch st b entry then some b else none) = none
  rw [hval]
  rfl

end AccountMatcher

namespace MappingOrchestrator

theorem tryAccountMatching_spec (st : State) (tx : Transaction) :
    tryAccountMatching st tx = MappingResult.zero ∨
    ∃ de ce da ca,
      tx.entries.find? (fun e => e.type = .debit) = some de ∧
      tx.entries.find? (fun e => e.type = .credit) = some ce ∧
      AccountMatcher.findMatchingAccount st.am de tx = some da ∧
      AccountMatcher.findMatchingAccount st.am ce tx = some ca ∧
      tryAccountMatching st tx = ⟨some da.toJs, some ca.toJs, ⟨6, 10⟩⟩ := by
  unfold tryAccountMatching tryAccountMatchingBody
  cases hde : tx.entries.find? (fun e => e.type = .debit) with
  | none => left; rfl
  | some de =>
      cases hce : tx.entries.find? (fun e => e.type = .credit) with
      | none => left; rfl
      | some ce =>
          cases hda : AccountMatcher.findMatchingAccount st.am de tx with
          | none =>
              left
              dsimp only
              rw [hda]
              rfl
          | some da =>
              cases hca : AccountMatcher.findMatchingAccount st.am ce tx with
              | none =>
                  left
                  dsimp only
                  rw [hda, hca]
                  rfl
              | some ca =>
                  right
                  refine ⟨de, ce, da, ca, rfl, rfl, hda, hca, ?_⟩
                  dsimp only
                  rw [hda, hca]
                  rfl

theorem account_branch_eq (st : State) (tx : Transaction) :
    (if Q.blt ⟨0, 1⟩ (tryAccountMatching st tx).confidence then tryAccountMatching st tx
     else MappingResult.zero) =
    (match tx.entries.find? (fun e => e.type = .debit),
           tx.entries.find? (fun e => e.type = .credit) with
     | some de, some ce =>
         (match AccountMatcher.findMatchingAccount st.am de tx,
                AccountMatcher.findMatchingAccount st.am ce tx with
          | some da, some ca => (⟨some da.toJs, some ca.toJs, ⟨6, 10⟩⟩ : MappingResult)
          | _, _ => MappingResult.zero)
     | _, _ => MappingResult.zero) := by
  unfold tryAccountMatching tryAccountMatchingBody
  cases hde : tx.entries.find? (fun e => e.type = .debit) with
  | none => rfl
  | some de =>
      cases hce : tx.entries.find? (fun e => e.type = .credit) with
      | none => rfl
      | some ce =>
          cases hda : AccountMatcher.findMatchingAccount st.am de tx with
          | none =>
              dsimp only
              rw [hda]
              rfl
          | some da =>
              cases hca : AccountMatcher.findMatchingAccount st.am ce tx with
              | none =>
                  dsimp only
                  rw [hda, hca]
                  rfl
              | some ca =>
                  dsimp only
                  rw [hda, hca]
                  rfl

theorem mapTransaction_eq_spec (st : State) (tx : Transaction)
    (hinit : st.initialized = true) :
    mapTransaction st tx = .ok (specCascade st tx) := by
  unfold mapTransaction specCascade
  rw [hinit]
  rw [if_neg (show ¬ ¬ (true = true) by simp)]
  by_cases h8 : Q.blt ⟨8, 10⟩ (RAGMapper.mapTx st.rag tx).confidence = true
  · rw [if_pos h8, if_pos h8]
  · rw [if_neg h8, if_neg h8]
    have hacct := account_branch_eq st tx
    rcases hfm : TransactionPatternMatcher.findMatches st.tpm tx with ⟨dms, cms⟩
    unfold tryPatternMatching
    rw [hfm]
    have h70 : ¬ (Q.blt ⟨7, 10⟩ (MappingResult.zero).confidence = true) := by decide
    cases dms with
    | nil =>
        cases cms with
        | nil =>
            dsimp only
            rw [if_neg h70]
            rw [← apply_ite (fun r => (Except.ok r : Except JsErr MappingResult))]
            rw [hacct]
        | cons c cs =>
            dsimp only
            rw [if_neg h70]
            rw [← apply_ite (fun r => (Except.ok r : Except JsErr MappingResult))]
            rw [hacct]
    | cons d ds =>
        cases cms with
        | nil =>
            dsimp only
            rw [if_neg h70]
            rw [← apply_ite (fun r => (Except.ok r : Except JsErr MappingResult))]
            rw [hacct]
        | cons c cs =>
            dsimp only
            by_cases h7 : Q.blt ⟨7, 10⟩ (Q.jsMin d.confidence c.confidence) = true
            · rw [if_pos h7, if_pos h7]
            · rw [if_neg h7, if_neg h7]
              dsimp only
              rw [← apply_ite (fun r => (Except.ok r : Except JsErr MappingResult))]
              rw [hacct]

end MappingOrchestrator

namespace RAGMapper

theorem scoreOne_account_mem (st : State) (emb : List Nat) (de : TransactionEntry)
    (p : String × List Nat) (s : Option Account × Q) (A : Account)
    (h : scoreOne st emb de p = .ok s) (hA : s.1 = some A) : A ∈ st.accounts := by
  unfold scoreOne at h
  cases hsim : SimilarityCalculator.calculateSimilarity (.vec emb) (.vec p.2) with
  | error e => rw [hsim] at h; cases h
  | ok sim =>
      rw [hsim] at h
      cases hacc : st.accounts.find? (fun a => a.id = p.1) with
      | none =>
          cases hstd : st.standard with
          | none =>
              rw [hacc, hstd] at h
              cases h
              cases hA
          | some std =>
              rw [hacc, hstd] at h
              cases h
              cases hA
      | some a =>
          have hmem : a ∈ st.accounts := List.mem_of_find?_eq_some hacc
          cases hstd : st.standard with
          | none =>
              rw [hacc, hstd] at h
              cases h
              cases hA
              exact hmem
          | some std =>
              rw [hacc, hstd] at h
              dsimp only at h
              cases hconv : std.signConventions.lookup a.type with
              | none =>
                  rw [hconv] at h
                  cases h
                  cases hA
                  exact hmem
              | some conv =>
                  rw [hconv] at h
                  cases h
                  cases hA
                  exact hmem

theorem findBestMatches_accounts (st : State) (emb : List Nat) (tx : Transaction)
    (r : MappingResult) (h : findBestMatches st emb tx = .ok r)
    (da ca : JsAccount) (hd : r.debitAccount = some da) (hc : r.creditAccount = some ca) :
    ∃ A B : Account, A ∈ st.accounts ∧ B ∈ st.accounts ∧
      da = A.toJs ∧ ca = B.toJs ∧
      isValidSide st (some A) .debit = true ∧ isValidSide st (some B) .credit = true := by
  unfold findBestMatches at h
  cases hde : tx.entries.find? (fun e => e.type = .debit) with
  | none =>
      rw [hde] at h
      dsimp only at h
      cases h
      cases hd
  | some de =>
      cases hce : tx.entries.find? (fun e => e.type = .credit) with
      | none =>
          rw [hde, hce] at h
          dsimp only at h
          cases h
          cases hd
      | some ce =>
          rw [hde, hce] at h
          dsimp only at h
          cases hm : mapE (scoreOne st emb de) st.accountEmbeddings with
          | error e =>
              rw [hm] at h
              cases h
          | ok scores =>
              rw [hm] at h
              rw [except_bind_ok] at h
              cases hbd : (stableSort (fun a b => Q.blt b.2 a.2) scores).find?
                  (fun s => isValidSide st s.1 .debit) with
              | none =>
                  rw [hbd] at h
                  dsimp only at h
                  cases h
                  cases hd
              | some bd =>
                  rw [hbd] at h
                  dsimp only at h
                  cases hbc : (stableSort (fun a b => Q.blt b.2 a.2) scores).find?
                      (fun s => (decide (s.1 ≠ bd.1)) && isValidSide st s.1 .credit) with
                  | none =>
                      rw [hbc] at h
                      dsimp only at h
                      cases h
                      cases hd
                  | some bc =>
                      rw [hbc] at h
                      dsimp only at h
                      have hbdv : isValidSide st bd.1 .debit = true := by
                        simpa using List.find?_some hbd
                      have hbcv : isValidSide st bc.1 .credit = true := by
                        have hp := List.find?_some hbc
                        simp only [Bool.and_eq_true] at hp
                        exact hp.2
                      have hbdmem : bd ∈ scores :=
                        (mem_stableSort _ bd scores).mp (List.mem_of_find?_eq_some hbd)
                      have hbcmem : bc ∈ scores :=
                        (mem_stableSort _ bc scores).mp (List.mem_of_find?_eq_some hbc)
                      rcases mapE_mem_ok hm bd hbdmem with ⟨pd, _, hpd⟩
                      rcases mapE_mem_ok hm bc hbcmem with ⟨pc, _, hpc⟩
                      cases hbd1 : bd.1 with
                      | none =>
                          rw [hbd1] at h
                          dsimp only at h
                          cases h
                          cases hd
                      | some dA =>
                          cases hbc1 : bc.1 with
                          | none =>
                              rw [hbd1, hbc1] at h
                              dsimp only at h
                              cases h
                              cases hd
                          | some cA =>
                              rw [hbd1, hbc1] at h
                              dsimp only at h
                              cases h
                              cases hd
                              cases hc
                              rw [hbd1] at hbdv
                              rw [hbc1] at hbcv
                              exact ⟨dA, cA,
                                scoreOne_account_mem st emb de pd bd dA hpd hbd1,
                                scoreOne_account_mem st emb de pc bc cA hpc hbc1,
                                rfl, rfl, hbdv, hbcv⟩

theorem isValidSide_spec (st : State) (A : Account) (side : EntryType)
    (h : isValidSide st (some A) side = true) :
    ∃ std conv, st.standard = some std ∧
      std.signConventions.lookup A.type = some conv ∧
      conv.normalBalance = side := by
  unfold isValidSide at h
  cases hstd : st.standard with
  | none => rw [hstd] at h; cases h
  | some std =>
      rw [hstd] at h
      dsimp only at h
      cases hconv : std.signConventions.lookup A.type with
      | none => rw [hconv] at h; cases h
      | some conv =>
          rw [hconv] at h
          simp only [decide_eq_true_eq] at h
          exact ⟨std, conv, rfl, hconv, h⟩

end RAGMapper

theorem Account.toJs_type_inj {A B : Account} (h : A.toJs = B.toJs) :
    A.type = B.type := by
  have := congrArg JsAccount.type h
  simpa [Account.toJs] using this

/-- Two accounts whose types carry opposite normal balances under one
standard are distinct, even as mapping-result objects. -/
theorem opposite_normal_distinct (std : AccountingStandard) (A B : Account)
    (convA convB : SignConvention)
    (hA : std.signConventions.lookup A.type = some convA)
    (hB : std.signConventions.lookup B.type = some convB)
    (hAn : convA.normalBalance = .debit) (hBn : convB.normalBalance = .credit) :
    A.toJs ≠ B.toJs := by
  intro heq
  have hty : A.type = B.type := Account.toJs_type_inj heq
  rw [hty] at hA
  rw [hA] at hB
  injection hB with hconv
  rw [hconv] at hAn
  rw [hAn] at hBn
  cases hBn

namespace AccountMatcher

theorem validateAccountMatch_spec (st : State) (A : Account)
    (entry : TransactionEntry) (std : AccountingStandard)
    (hstd : st.standard = some std) (h : validateAccountMatch st A entry = true) :
    ∃ conv, std.signConventions.lookup A.type = some conv ∧
      conv.normalBalance = entry.type := by
  unfold validateAccountMatch at h
  rw [hstd] at h
  dsimp only at h
  cases hconv : std.signConventions.lookup A.type with
  | none =>
      rw [hconv] at h
      simp at h
  | some conv =>
      rw [hconv] at h
      simp only [decide_eq_true_eq] at h
      exact ⟨conv, rfl, h⟩

theorem findMatchingAccount_mem (st : State) (entry : TransactionEntry)
    (tx : Transaction) (a : Account)
    (h : findMatchingAccount st entry tx = some a) : a ∈ st.accounts := by
  rcases findMatchingAccount_cases st entry tx a h with ⟨_, hcase | ⟨_, hfz⟩⟩
  · exact List.mem_of_find?_eq_some hcase
  · exact List.mem_of_find?_eq_some hfz

end AccountMatcher

namespace MappingOrchestrator

theorem specCascade_shape (st : State) (tx : Transaction) :
    (Q.blt ⟨8, 10⟩ (RAGMapper.mapTx st.rag tx).confidence = true ∧
      specCascade st tx = RAGMapper.mapTx st.rag tx) ∨
    (Q.blt ⟨8, 10⟩ (RAGMapper.mapTx st.rag tx).confidence = false ∧
      ∃ d ds c cs,
        TransactionPatternMatcher.findMatches st.tpm tx = (d :: ds, c :: cs) ∧
        Q.blt ⟨7, 10⟩ (Q.jsMin d.confidence c.confidence) = true ∧
        specCascade st tx =
          ⟨some (JsAccount.stub d.accountId), some (JsAccount.stub c.accountId),
           Q.jsMin d.confidence c.confidence⟩) ∨
    (Q.blt ⟨8, 10⟩ (RAGMapper.mapTx st.rag tx).confidence = false ∧
      ∃ de ce da ca,
        tx.entries.find? (fun e => e.type = .debit) = some de ∧
        tx.entries.find? (fun e => e.type = .credit) = some ce ∧
        AccountMatcher.findMatchingAccount st.am de tx = some da ∧
        AccountMatcher.findMatchingAccount st.am ce tx = some ca ∧
        specCascade st tx = ⟨some da.toJs, some ca.toJs, ⟨6, 10⟩⟩) ∨
    specCascade st tx = MappingResult.zero := by
  unfold specCascade
  by_cases h8 : Q.blt ⟨8, 10⟩ (RAGMapper.mapTx st.rag tx).confidence = true
  · left
    exact ⟨h8, by rw [if_pos h8]⟩
  · rw [if_neg h8]
    have h8f : Q.blt ⟨8, 10⟩ (RAGMapper.mapTx st.rag tx).confidence = false :=
      Bool.not_eq_true _ ▸ Bool.of_not_eq_true h8
    right
    rcases hfm : TransactionPatternMatcher.findMatches st.tpm tx with ⟨dms, cms⟩
    have haccount : ∀ goal : Prop,
        ((∃ de ce da ca,
          tx.entries.find? (fun e => e.type = .debit) = some de ∧
          tx.entries.find? (fun e => e.type = .credit) = some ce ∧
          AccountMatcher.findMatchingAccount st.am de tx = some da ∧
          AccountMatcher.findMatchingAccount st.am ce tx = some ca ∧
          (match tx.entries.find? (fun e => e.type = .debit),
                 tx.entries.find? (fun e => e.type = .credit) with
           | some de, some ce =>
               (match AccountMatcher.findMatchingAccount st.am de tx,
                      AccountMatcher.findMatchingAccount st.am ce tx with
                | some da, some ca =>
                    (⟨some da.toJs, some ca.toJs, ⟨6, 10⟩⟩ : MappingResult)
                | _, _ => MappingResult.zero)
           | _, _ => MappingResult.zero) = ⟨some da.toJs, some ca.toJs, ⟨6, 10⟩⟩) → goal) →
        ((match tx.entries.find? (fun e => e.type = .debit),
                tx.entries.find? (fun e => e.type = .credit) with
          | some de, some ce =>
              (match AccountMatcher.findMatchingAccount st.am de tx,
                     AccountMatcher.findMatchingAccount st.am ce tx with
               | some da, some ca =>
                   (⟨some da.toJs, some ca.toJs, ⟨6, 10⟩⟩ : MappingResult)
               | _, _ => MappingResult.zero)
          | _, _ => MappingResult.zero) = MappingResult.zero → goal) → goal := by
      intro goal hfull hzero
      cases hde : tx.entries.find? (fun e => e.type = .debit) with
      | none => exact hzero (by rw [hde])
      | some de =>
          cases hce : tx.entries.find? (fun e => e.type = .credit) with
          | none => exact hzero (by rw [hde, hce])
          | some ce =>
              cases hda : AccountMatcher.findMatchingAccount st.am de tx with
              | none => exact hzero (by rw [hde, hce]; dsimp only; rw [hda])
              | some da =>
                  cases hca : AccountMatcher.findMatchingAccount st.am ce tx with
                  | none => exact hzero (by rw [hde, hce]; dsimp only; rw [hda, hca])
                  | some ca =>
                      exact hfull ⟨de, ce, da, ca, hde, hce, hda, hca,
                        by rw [hde, hce]; dsimp only; rw [hda, hca]⟩
    cases dms with
    | nil =>
        dsimp only
        refine haccount _ ?_ ?_
        · intro ⟨de, ce, da, ca, hde, hce, hda, hca, heq⟩
          right; left
          exact ⟨h8f, de, ce, da, ca, hde, hce, hda, hca, heq⟩
        · intro heq
          right; right
          exact heq
    | cons d ds =>
        cases cms with
        | nil =>
            dsimp only
            refine haccount _ ?_ ?_
            · intro ⟨de, ce, da, ca, hde, hce, hda, hca, heq⟩
              right; left
              exact ⟨h8f, de, ce, da, ca, hde, hce, hda, hca, heq⟩
            · intro heq
              right; right
              exact heq
        | cons c cs =>
            dsimp only
            by_cases h7 : Q.blt ⟨7, 10⟩ (Q.jsMin d.confidence c.confidence) = true
            · left
              rw [if_pos h7]
              exact ⟨h8f, d, ds, c, cs, rfl, h7, rfl⟩
            · rw [if_neg h7]
              dsimp only
              refine haccount _ ?_ ?_
              · intro ⟨de, ce, da, ca, hde, hce, hda, hca, heq⟩
                right; left
                exact ⟨h8f, de, ce, da, ca, hde, hce, hda, hca, heq⟩
              · intro heq
                right; right
                exact heq

end MappingOrchestrator

/-! ## Concrete fixtures used by witnesses and counterexamples -/

/-- A standard with the usual four sign conventions. -/
def stdFix : AccountingStandard :=
  ⟨"US GAAP",
   [("asset", ⟨.debit⟩), ("liability", ⟨.credit⟩),
    ("expense", ⟨.debit⟩), ("revenue", ⟨.credit⟩)]⟩

def acctCash : Account :=
  ⟨"a1", "1000", "Cash", some "Cash on hand", "asset", "current", true⟩

def acctSupplies : Account :=
  ⟨"a2", "5200", "Office Supplies", some "Supplies expense", "expense", "operating", true⟩

def acctRevenue : Account :=
  ⟨"a3", "4000", "Sales Revenue", none, "revenue", "operating", true⟩

/-- A transaction whose entries carry exact account codes. -/
def txPay : Transaction :=
  ⟨"t1", "Payment for office supplies", none, "2024-01-15",
   [⟨"5200", .debit, "500.00"⟩, ⟨"4000", .credit, "500.00"⟩]⟩

/-- A malformed transaction: no credit entry. -/
def txBad : Transaction :=
  ⟨"t3", "broken", none, "2024-01-01", [⟨"1000", .debit, "1"⟩]⟩

/-- A learned transaction whose confirmed debit and credit account ids
are the same. -/
def txLearn : Transaction :=
  ⟨"t0", "Office Rent", none, "2024-01-02", [⟨"", .debit, "100"⟩, ⟨"", .credit, "100"⟩]⟩

/-- A new transaction with the same normalized description as `txLearn`. -/
def txNew : Transaction :=
  ⟨"t2", "office rent", none, "2024-02-02", [⟨"", .debit, "100"⟩, ⟨"", .credit, "100"⟩]⟩

/-- Orchestrator state: full chart, no learned patterns. -/
def stFix : MappingOrchestrator.State :=
  MappingOrchestrator.mkState [acctCash, acctSupplies, acctRevenue] stdFix []

/-- Orchestrator state: empty chart, one learned self-pair. -/
def stSelfPair : MappingOrchestrator.State :=
  MappingOrchestrator.mkState [] stdFix [(txLearn, "A", "A")]

/-! ## Claim theorems -/

/-- C1: for every initialized orchestrator (any chart of accounts,
standard and learned history) and every transaction, `mapTransaction`
returns the RAGMapper result iff its confidence exceeds 0.8; otherwise
the pattern result — min of the best debit and credit candidates, formed
only when both lists are non-empty — iff it exceeds 0.7; otherwise the
account-matcher result with fixed confidence 0.6 iff both entries
resolve; otherwise a result with confidence 0.  `specCascade` is that
cascade transcribed from the specification, and `mapTransaction` equals
it. -/
theorem C1_cascade_order (accounts : List Account) (std : AccountingStandard)
    (learns : List (Transaction × String × String)) (tx : Transaction) :
    MappingOrchestrator.mapTransaction
        (MappingOrchestrator.mkState accounts std learns) tx =
      .ok (MappingOrchestrator.specCascade
        (MappingOrchestrator.mkState accounts std learns) tx) :=
  MappingOrchestrator.mapTransaction_eq_spec _ tx rfl

/-- C2: before initialization `mapTransaction` fails with
`NotInitialized`; once initialized (with any learned history) it always
returns a result and never throws; a transaction missing a debit or a
credit entry makes the account-matching stage throw
`MalformedTransaction` internally, which is caught and converted to a
zero-confidence stage result. -/
theorem C2_never_throws (accounts : List Account) (std : AccountingStandard)
    (learns : List (Transaction × String × String)) (tx : Transaction) :
    MappingOrchestrator.mapTransaction MappingOrchestrator.initialState tx =
      .error .notInitialized ∧
    (∃ r, MappingOrchestrator.mapTransaction
        (MappingOrchestrator.mkState accounts std learns) tx = .ok r) ∧
    ((tx.entries.find? (fun e => e.type = .debit) = none ∨
      tx.entries.find? (fun e => e.type = .credit) = none) →
      MappingOrchestrator.tryAccountMatchingBody
          (MappingOrchestrator.mkState accounts std learns) tx =
        .error .malformedTransaction ∧
      MappingOrchestrator.tryAccountMatching
          (MappingOrchestrator.mkState accounts std learns) tx =
        MappingResult.zero) := by
  refine ⟨rfl, ⟨_, MappingOrchestrator.mapTransaction_eq_spec _ tx rfl⟩, ?_⟩
  intro hmiss
  have hbody : MappingOrchestrator.tryAccountMatchingBody
      (MappingOrchestrator.mkState accounts std learns) tx =
      .error .malformedTransaction := by
    unfold MappingOrchestrator.tryAccountMatchingBody
    rcases hmiss with hde | hce
    · rw [hde]
      rfl
    · cases hde : tx.entries.find? (fun e => e.type = .debit) with
      | none => rfl
      | some de => rw [hce]; rfl
  refine ⟨hbody, ?_⟩
  unfold MappingOrchestrator.tryAccountMatching
  rw [hbody]

/-- Closed instance of C2 discharging its malformed-transaction
hypothesis: `txBad` has no credit entry, the stage body throws
`MalformedTransaction`, the stage returns zero confidence and the
orchestrator still returns a result. -/
theorem C2_never_throws_witness :
    MappingOrchestrator.tryAccountMatchingBody stFix txBad =
      .error .malformedTransaction ∧
    MappingOrchestrator.tryAccountMatching stFix txBad = MappingResult.zero ∧
    ∃ r, MappingOrchestrator.mapTransaction stFix txBad = .ok r := by
  have h := C2_never_throws [acctCash, acctSupplies, acctRevenue] stdFix [] txBad
  have hm := h.2.2 (Or.inr (by decide))
  exact ⟨hm.1, hm.2, h.2.1⟩

/-- A transaction whose description (and feature tokens) share no token
with the three-account chart's vocabulary: its embedding is the zero
vector. -/
def txZzz : Transaction :=
  ⟨"t9", "zzz", none, "2024-01-15",
   [⟨"", .debit, "500.00"⟩, ⟨"", .credit, "500.00"⟩]⟩

/-- C3: refuted on the code.  The claim says every stage confidence lies in
[0,1], but `RAGMapper.mapTransaction` can return `NaN`: on the three-account
chart, a transaction whose description shares no token with the vocabulary
embeds as the zero vector, every cosine similarity is `0/0 = NaN` (the
fraction `⟨0, 0⟩`), the NaN-scored candidates compare equal so the first
debit-normal and the first credit-normal accounts are still picked, and the
returned confidence is `Math.min(NaN * 1.2, NaN * 0.8) = NaN` — for which
both `0 <= confidence` and `confidence <= 1` are false in JavaScript, so the
confidence is not in the unit interval. -/
theorem C3_nan_confidence :
    RAGMapper.mapTx stFix.rag txZzz =
      ⟨some acctCash.toJs, some acctRevenue.toJs, (⟨0, 0⟩ : Q)⟩ ∧
    Q.jsLe ⟨0, 1⟩ (RAGMapper.mapTx stFix.rag txZzz).confidence = false ∧
    Q.jsLe (RAGMapper.mapTx stFix.rag txZzz).confidence ⟨1, 1⟩ = false := by
  refine ⟨by decide, by decide, by decide⟩

theorem RAGMapper.mapTx_accounts (st : RAGMapper.State) (tx : Transaction)
    (da ca : JsAccount)
    (hd : (RAGMapper.mapTx st tx).debitAccount = some da)
    (hc : (RAGMapper.mapTx st tx).creditAccount = some ca) :
    ∃ A B : Account, A ∈ st.accounts ∧ B ∈ st.accounts ∧
      da = A.toJs ∧ ca = B.toJs ∧
      RAGMapper.isValidSide st (some A) .debit = true ∧
      RAGMapper.isValidSide st (some B) .credit = true := by
  unfold RAGMapper.mapTx at hd hc
  dsimp only at hd hc
  cases hfb : RAGMapper.findBestMatches st
      (RAGMapper.createTransactionEmbedding st tx
        (TransactionFeatureExtractor.extractFeatures tx)) tx with
  | error e =>
      rw [hfb] at hd
      cases hd
  | ok r =>
      rw [hfb] at hd hc
      exact RAGMapper.findBestMatches_accounts st _ tx r hfb da ca hd hc

theorem JsAccount.stub_inj {i j : String} (h : JsAccount.stub i = JsAccount.stub j) :
    i = j := by
  have := congrArg JsAccount.id h
  simpa [JsAccount.stub] using this

/-- C4 counterexample: after learning a confirmed mapping whose debit and
credit account ids are both `"A"`, the orchestrator accepts the pattern
stage and returns the same account (the id-stub `"A"`) as both debit and
credit, with confidence 0.95 — so the two returned accounts are not
distinct. -/
theorem C4_distinct_counterexample :
    MappingOrchestrator.mapTransaction stSelfPair txNew =
      .ok ⟨some (JsAccount.stub "A"), some (JsAccount.stub "A"), ⟨95, 100⟩⟩ ∧
    (JsAccount.stub "A" : JsAccount).id = some "A" := by
  constructor
  · decide
  · rfl

/-- C4 amended: whenever an initialized orchestrator returns both a debit
and a credit account they are distinct, except that the pattern stage's
two id-stub results may coincide (exactly when the chosen debit and
credit candidates carry the same learned account id). -/
theorem C4_distinct_amended (accounts : List Account) (std : AccountingStandard)
    (learns : List (Transaction × String × String)) (tx : Transaction)
    (r : MappingResult) (da ca : JsAccount)
    (hr : MappingOrchestrator.mapTransaction
        (MappingOrchestrator.mkState accounts std learns) tx = .ok r)
    (hd : r.debitAccount = some da) (hc : r.creditAccount = some ca) :
    da ≠ ca ∨ ∃ i, da = JsAccount.stub i ∧ ca = JsAccount.stub i := by
  rw [MappingOrchestrator.mapTransaction_eq_spec _ tx rfl] at hr
  injection hr with hr
  subst hr
  rcases MappingOrchestrator.specCascade_shape
      (MappingOrchestrator.mkState accounts std learns) tx with
    ⟨_, heq⟩ | ⟨_, d, ds, c, cs, hfm, _, heq⟩ | ⟨_, de, ce, dA, cA, hde, hce, hda, hca, heq⟩ | heq
  · rw [heq] at hd hc
    rcases RAGMapper.mapTx_accounts _ tx da ca hd hc with
      ⟨A, B, _, _, hdA, hcB, hvA, hvB⟩
    rcases RAGMapper.isValidSide_spec _ A .debit hvA with ⟨stdA, convA, hstdA, hconvA, hnA⟩
    rcases RAGMapper.isValidSide_spec _ B .credit hvB with ⟨stdB, convB, hstdB, hconvB, hnB⟩
    rw [hstdA] at hstdB
    injection hstdB with hstdEq
    subst hstdEq
    left
    rw [hdA, hcB]
    exact opposite_normal_distinct stdA A B convA convB hconvA hconvB hnA hnB
  · rw [heq] at hd hc
    injection hd with hd
    injection hc with hc
    subst hd
    subst hc
    by_cases hid : d.accountId = c.accountId
    · right
      exact ⟨d.accountId, rfl, by rw [hid]⟩
    · left
      intro hcon
      exact hid (JsAccount.stub_inj hcon)
  · rw [heq] at hd hc
    injection hd with hd
    injection hc with hc
    subst hd
    subst hc
    have hstdam : (MappingOrchestrator.mkState accounts std learns).am.standard = some std := rfl
    have hvd := (AccountMatcher.findMatchingAccount_cases _ de tx dA hda).1
    have hvc := (AccountMatcher.findMatchingAccount_cases _ ce tx cA hca).1
    rcases AccountMatcher.validateAccountMatch_spec _ dA de std hstdam hvd with
      ⟨convA, hconvA, hnA⟩
    rcases AccountMatcher.validateAccountMatch_spec _ cA ce std hstdam hvc with
      ⟨convB, hconvB, hnB⟩
    have hdet : de.type = .debit := by
      have := List.find?_some hde
      simpa using this
    have hcet : ce.type = .credit := by
      have := List.find?_some hce
      simpa using this
    rw [hdet] at hnA
    rw [hcet] at hnB
    left
    exact opposite_normal_distinct std dA cA convA convB hconvA hconvB hnA hnB
  · rw [heq] at hd
    cases hd

/-- Closed instance of C4 amended at a state where the two accounts are
genuinely distinct (the account-matching branch fires on `txPay`). -/
theorem C4_distinct_amended_witness :
    acctSupplies.toJs ≠ acctRevenue.toJs ∨
    ∃ i, acctSupplies.toJs = JsAccount.stub i ∧ acctRevenue.toJs = JsAccount.stub i := by
  have h := C4_distinct_amended [acctCash, acctSupplies, acctRevenue] stdFix [] txPay
    ⟨some acctSupplies.toJs, some acctRevenue.toJs, ⟨6, 10⟩⟩
    acctSupplies.toJs acctRevenue.toJs (by decide) rfl rfl
  exact h

/-- The transaction learned for the C5 scenario. -/
def txOffice : Transaction :=
  ⟨"t5", "Office Depot supplies", none, "2024-01-10",
   [⟨"", .debit, "120.00"⟩, ⟨"", .credit, "120.00"⟩]⟩

/-- A near-duplicate query: same opening words, lexical similarity to the
stored description well above 0.7 under the spec's Dice measure. -/
def txOfficeSimilar : Transaction :=
  ⟨"t6", "Office Depot supplies and paper", none, "2024-01-11",
   [⟨"", .debit, "80.00"⟩, ⟨"", .credit, "80.00"⟩]⟩

/-- The pattern-matcher state after learning `txOffice → (5200, 1000)`. -/
def tpmLearned : TransactionPatternMatcher.State :=
  (MappingOrchestrator.mkState [] stdFix [(txOffice, "5200", "1000")]).tpm

/-- C5, evaluated at the failing input: the learned tables are populated
(one historical pattern, two usage counts), the spec's own lexical
similarity between the stored and queried descriptions exceeds 0.7, and
yet `findMatches` returns two empty candidate lists — no fuzzy
`similarity × 0.85` candidate and no frequency-based candidates — because
the similar-description scan calls the numeric-vector cosine method on
two strings and throws, discarding steps 3 and 4. -/
theorem C5_findMatches_failing_input :
    tpmLearned.historicalPatterns =
      [("office depot supplies", "5200", "1000")] ∧
    tpmLearned.accountUsageFrequency = [("5200", 1), ("1000", 1)] ∧
    Q.blt ⟨7, 10⟩ (TextProcessor.compareTwoStrings
      "office depot supplies" "office depot supplies and paper") = true ∧
    TransactionPatternMatcher.findSimilarDescriptionMatches tpmLearned
      txOfficeSimilar = .error .lengthMismatch ∧
    TransactionPatternMatcher.findMatches tpmLearned txOfficeSimilar = ([], []) ∧
    TransactionPatternMatcher.findMatches tpmLearned txOffice =
      ([⟨"5200", ⟨95, 100⟩, "Historical pattern match"⟩],
       [⟨"1000", ⟨95, 100⟩, "Historical pattern match"⟩]) := by
  refine ⟨by decide, by decide, by decide, by decide, by decide, by decide⟩

/-- C6: every account returned by `findMatchingAccount` (from whichever
of the three stages produced it) passed the sign-convention gate: the
standard has a convention for the account's type and its normal balance
equals the entry's type.  When the candidate of the exact or fuzzy stage
fails validation (type mismatch or missing convention), the function
returns no account rather than falling through or throwing. -/
theorem C6_sign_convention_gate (st : AccountMatcher.State)
    (std : AccountingStandard) (entry : TransactionEntry) (tx : Transaction)
    (hstd : st.standard = some std) :
    (∀ a : Account, AccountMatcher.findMatchingAccount st entry tx = some a →
      ∃ conv, std.signConventions.lookup a.type = some conv ∧
        conv.normalBalance = entry.type) ∧
    (∀ b : Account, AccountMatcher.findExactMatch st entry.accountNumber = some b →
      AccountMatcher.validateAccountMatch st b entry = false →
      AccountMatcher.findMatchingAccount st entry tx = none) ∧
    (∀ b : Account, AccountMatcher.findExactMatch st entry.accountNumber = none →
      AccountMatcher.findFuzzyCodeMatch st entry.accountNumber = some b →
      AccountMatcher.validateAccountMatch st b entry = false →
      AccountMatcher.findMatchingAccount st entry tx = none) := by
  refine ⟨?_, ?_, ?_⟩
  · intro a ha
    have hval := (AccountMatcher.findMatchingAccount_cases st entry tx a ha).1
    exact AccountMatcher.validateAccountMatch_spec st a entry std hstd hval
  · intro b hex hval
    exact AccountMatcher.findMatchingAccount_exact_invalid st entry tx b hex hval
  · intro b hex hfz hval
    exact AccountMatcher.findMatchingAccount_fuzzy_invalid st entry tx b hex hfz hval

/-- Closed instance of C6: on `txPay`'s debit entry the matcher returns
the expense account `5200`, and the theorem yields its validated sign
convention (expense accounts are debit-normal). -/
theorem C6_sign_convention_gate_witness :
    ∃ conv, stdFix.signConventions.lookup acctSupplies.type = some conv ∧
      conv.normalBalance = EntryType.debit := by
  have h := C6_sign_convention_gate stFix.am stdFix ⟨"5200", .debit, "500.00"⟩ txPay rfl
  exact h.1 acctSupplies (by decide)

/-- An active account whose code normalizes to the empty string. -/
def acctZero : Account := ⟨"z1", "0", "Zero Account", none, "asset", "current", true⟩

/-- An active account with code `0100`. -/
def acctFuzzy : Account := ⟨"f1", "0100", "Fuzzy Account", none, "asset", "current", true⟩

/-- C7, evaluated at the failing input: code `0100` does match inputs
`100` and `0100` and not `0200` (the claim's first half), but an input
that normalizes to the empty string (`X`) is NOT treated as "no match":
it matches the active account whose code `0` also normalizes to empty,
contradicting the claim's (and the spec's) required edge-case
behaviour. -/
theorem C7_fuzzy_empty_normalization_bug :
    AccountMatcher.normalizeCode "X" = [] ∧
    AccountMatcher.normalizeCode "0" = [] ∧
    AccountMatcher.findFuzzyCodeMatch
      (AccountMatcher.initState [acctZero] stdFix) "X" = some acctZero ∧
    AccountMatcher.findFuzzyCodeMatch
      (AccountMatcher.initState [acctFuzzy] stdFix) "100" = some acctFuzzy ∧
    AccountMatcher.findFuzzyCodeMatch
      (AccountMatcher.initState [acctFuzzy] stdFix) "0100" = some acctFuzzy ∧
    AccountMatcher.findFuzzyCodeMatch
      (AccountMatcher.initState [acctFuzzy] stdFix) "0200" = none := by
  refine ⟨by decide, by decide, by decide, by decide, by decide, by decide⟩

/-- A two-word transaction for the C8 instance. -/
def txWords : Transaction :=
  ⟨"t8", "alpha beta", none, "2024-01-15",
   [⟨"", .debit, "42.50"⟩, ⟨"", .credit, "42.50"⟩]⟩

/-- C8 counterexample: on a concrete transaction, the adjacent-pair
feature `alpha_beta` comes out of `extractFeatures` carrying weight 0.35
— the description group weight — and no returned feature of any group
carries its within-group weight (no weight has the value 1.2 or 1.5, and
none is 1.0 except by coincidence of a group weight): `{ ...f, weight:
groupWeight }` overwrote the within-group weights. -/
theorem C8_weights_counterexample :
    (Feature.mk "description_word_pair" "alpha_beta" ⟨35, 100⟩) ∈
      TransactionFeatureExtractor.extractFeatures txWords ∧
    (∀ f ∈ TransactionFeatureExtractor.extractFeatures txWords,
      f.weight.num * 10 ≠ 12 * f.weight.den ∧
      f.weight.num * 10 ≠ 15 * f.weight.den ∧
      f.weight.num * 1 ≠ 1 * f.weight.den) := by
  refine ⟨by decide, by decide⟩

/-- The weight `extractFeatures` actually attaches to a feature, looked
up from the feature's type tag: always the group weight. -/
def groupWeightOf (t : String) : Q :=
  if t = "description_word" ∨ t = "description_word_pair" then ⟨35, 100⟩
  else if t = "amount_range" ∨ t = "amount_type" then ⟨25, 100⟩
  else if t = "vendor" ∨ t = "vendor_type" then ⟨20, 100⟩
  else if t = "day_of_week" ∨ t = "day_of_month" ∨ t = "date_type" then ⟨15, 100⟩
  else ⟨5, 100⟩

namespace TransactionFeatureExtractor

theorem descF_types (d : String) :
    ∀ g ∈ extractDescriptionFeatures d,
      g.type = "description_word" ∨ g.type = "description_word_pair" := by
  intro g hg
  unfold extractDescriptionFeatures at hg
  rcases List.mem_append.mp hg with hg | hg <;>
    rcases List.mem_map.mp hg with ⟨w, _, hw⟩ <;>
    rw [← hw]
  · left; rfl
  · right; rfl

theorem amountF_types (tx : Transaction) :
    ∀ g ∈ extractAmountFeatures tx,
      g.type = "amount_range" ∨ g.type = "amount_type" := by
  intro g hg
  unfold extractAmountFeatures at hg
  dsimp only at hg
  split_ifs at hg <;>
    simp only [List.mem_append, List.mem_cons, List.not_mem_nil, or_false] at hg <;>
    rcases hg with hg | hg <;>
    try rcases hg with hg | hg
  all_goals try rw [hg]
  all_goals first | (left; rfl) | (right; rfl)

theorem vendorF_types (v : String) :
    ∀ g ∈ extractVendorFeatures v,
      g.type = "vendor" ∨ g.type = "vendor_type" := by
  intro g hg
  unfold extractVendorFeatures at hg
  rcases List.mem_cons.mp hg with hg | hg
  · left; rw [hg]
  · rcases List.mem_map.mp hg with ⟨t, _, ht⟩
    right
    rw [← ht]

theorem dateF_types (d : String) :
    ∀ g ∈ extractDateFeatures d,
      g.type = "day_of_week" ∨ g.type = "day_of_month" ∨ g.type = "date_type" := by
  intro g hg
  unfold extractDateFeatures at hg
  cases hp : parseIsoDate d with
  | none =>
      rw [hp] at hg
      rcases List.mem_cons.mp hg with hg | hg
      · left; rw [hg]
      · rcases List.mem_cons.mp hg with hg | hg
        · right; left; rw [hg]
        · cases hg
  | some pd =>
      rw [hp] at hg
      dsimp only at hg
      split_ifs at hg <;>
        simp only [List.mem_append, List.mem_cons, List.not_mem_nil, or_false] at hg <;>
        rcases hg with hg | hg <;>
        try rcases hg with hg | hg
      all_goals try rcases hg with hg | hg
      all_goals try rw [hg]
      all_goals first
        | (left; rfl)
        | (right; left; rfl)
        | (right; right; rfl)

end TransactionFeatureExtractor

/-- C8 amended: every feature returned by `extractFeatures` carries
exactly its group's weight (0.35 description, 0.25 amount, 0.20 vendor,
0.15 date, 0.05 transaction type); the within-group weights assigned by
the group extractors (1.0, 1.2, 1.5) are overwritten on return and are
not available to consumers. -/
theorem C8_weights_amended (tx : Transaction) :
    ∀ f ∈ TransactionFeatureExtractor.extractFeatures tx,
      f.weight = groupWeightOf f.type := by
  intro f hf
  unfold TransactionFeatureExtractor.extractFeatures at hf
  dsimp only at hf
  rcases List.mem_append.mp hf with hf | hf
  rotate_left
  · rcases List.mem_cons.mp hf with hf | hf
    · rw [hf]
      show (⟨5, 100⟩ : Q) = groupWeightOf "transaction_type"
      decide
    · cases hf
  rcases List.mem_append.mp hf with hf | hf
  rotate_left
  · rcases List.mem_map.mp hf with ⟨g, hg, hw⟩
    rcases TransactionFeatureExtractor.dateF_types tx.date g hg with ht | ht | ht <;>
      rw [← hw] <;> simp only [ht] <;> decide
  rcases List.mem_append.mp hf with hf | hf
  rotate_left
  · cases hv : tx.customerName with
    | none =>
        rw [hv] at hf
        cases hf
    | some v =>
        rw [hv] at hf
        rcases List.mem_map.mp hf with ⟨g, hg, hw⟩
        rcases TransactionFeatureExtractor.vendorF_types v g hg with ht | ht <;>
          rw [← hw] <;> simp only [ht] <;> decide
  rcases List.mem_append.mp hf with hf | hf
  rotate_left
  · rcases List.mem_map.mp hf with ⟨g, hg, hw⟩
    rcases TransactionFeatureExtractor.amountF_types tx g hg with ht | ht <;>
      rw [← hw] <;> simp only [ht] <;> decide
  · rcases List.mem_map.mp hf with ⟨g, hg, hw⟩
    rcases TransactionFeatureExtractor.descF_types tx.description g hg with ht | ht <;>
      rw [← hw] <;> simp only [ht] <;> decide

/-- Closed instance of C8 amended: the pair feature of `txWords` carries
the description group weight. -/
theorem C8_weights_amended_witness :
    (Feature.mk "description_word_pair" "alpha_beta" ⟨35, 100⟩).weight =
      groupWeightOf "description_word_pair" :=
  C8_weights_amended txWords _ (by decide)

/-- C9, evaluated at the failing input: with one stored pattern and no
type filter, `findSimilarAccounts` passes two numeric vectors to
`textProcessor.calculateSimilarity`, whose `.toLowerCase()` call raises a
`TypeError` — no cosine ranking ever happens.  Only with zero stored
patterns (nothing to score) does the call return, with an empty list. -/
theorem C9_findSimilarAccounts_throws :
    AccountPatternBuilder.findSimilarAccounts
      (AccountPatternBuilder.buildPatterns [acctCash]) "cash" none 5 =
      .error .typeError ∧
    AccountPatternBuilder.findSimilarAccounts
      (AccountPatternBuilder.buildPatterns []) "cash" none 5 = .ok [] := by
  refine ⟨by decide, by decide⟩

/-- C10: when the orchestrator accepts the pattern-matching stage (RAG
below 0.8, both candidate lists non-empty, min of head confidences above
0.7), the returned debit and credit accounts are id-only stubs — every
other field is absent; by contrast, any account in a RAG-stage result or
an account-matching-stage result is the complete chart-of-accounts
object of a member of the accounts list. -/
theorem C10_pattern_stage_stubs (accounts : List Account)
    (std : AccountingStandard) (learns : List (Transaction × String × String))
    (tx : Transaction) :
    (∀ d ds c cs,
      TransactionPatternMatcher.findMatches
          (MappingOrchestrator.mkState accounts std learns).tpm tx = (d :: ds, c :: cs) →
      Q.blt ⟨8, 10⟩ (RAGMapper.mapTx
          (MappingOrchestrator.mkState accounts std learns).rag tx).confidence = false →
      Q.blt ⟨7, 10⟩ (Q.jsMin d.confidence c.confidence) = true →
      MappingOrchestrator.mapTransaction
          (MappingOrchestrator.mkState accounts std learns) tx =
        .ok ⟨some ⟨some d.accountId, none, none, none, none, none, none⟩,
             some ⟨some c.accountId, none, none, none, none, none, none⟩,
             Q.jsMin d.confidence c.confidence⟩) ∧
    (∀ da ca : JsAccount,
      (RAGMapper.mapTx (MappingOrchestrator.mkState accounts std learns).rag tx).debitAccount
        = some da →
      (RAGMapper.mapTx (MappingOrchestrator.mkState accounts std learns).rag tx).creditAccount
        = some ca →
      (∃ A ∈ accounts, da = A.toJs) ∧ (∃ B ∈ accounts, ca = B.toJs)) ∧
    (∀ da : JsAccount,
      (MappingOrchestrator.tryAccountMatching
          (MappingOrchestrator.mkState accounts std learns) tx).debitAccount = some da →
      ∃ A ∈ accounts, da = A.toJs) ∧
    (∀ ca : JsAccount,
      (MappingOrchestrator.tryAccountMatching
          (MappingOrchestrator.mkState accounts std learns) tx).creditAccount = some ca →
      ∃ B ∈ accounts, ca = B.toJs) := by
  refine ⟨?_, ?_, ?_, ?_⟩
  · intro d ds c cs hfm h8 h7
    rw [MappingOrchestrator.mapTransaction_eq_spec _ tx rfl]
    unfold MappingOrchestrator.specCascade
    rw [if_neg (show ¬ (Q.blt ⟨8, 10⟩ (RAGMapper.mapTx
        (MappingOrchestrator.mkState accounts std learns).rag tx).confidence = true) by
      rw [h8]; exact Bool.false_ne_true)]
    rw [hfm]
    dsimp only
    rw [if_pos h7]
    rfl
  · intro da ca hd hc
    rcases RAGMapper.mapTx_accounts _ tx da ca hd hc with
      ⟨A, B, hAmem, hBmem, hdA, hcB, _, _⟩
    exact ⟨⟨A, hAmem, hdA⟩, ⟨B, hBmem, hcB⟩⟩
  · intro da hd
    rcases MappingOrchestrator.tryAccountMatching_spec
        (MappingOrchestrator.mkState accounts std learns) tx with
      hz | ⟨de, ce, dA, cA, hde, hce, hda, hca, heq⟩
    · rw [hz] at hd
      cases hd
    · rw [heq] at hd
      injection hd with hd
      exact ⟨dA, AccountMatcher.findMatchingAccount_mem _ de tx dA hda, hd.symm⟩
  · intro ca hc
    rcases MappingOrchestrator.tryAccountMatching_spec
        (MappingOrchestrator.mkState accounts std learns) tx with
      hz | ⟨de, ce, dA, cA, hde, hce, hda, hca, heq⟩
    · rw [hz] at hc
      cases hc
    · rw [heq] at hc
      injection hc with hc
      exact ⟨cA, AccountMatcher.findMatchingAccount_mem _ ce tx cA hca, hc.symm⟩

/-- Closed instance of C10: in the learned state the pattern stage is
accepted and the orchestrator returns the two id-only stubs for account
id `A`, with all other fields absent. -/
theorem C10_pattern_stage_stubs_witness :
    MappingOrchestrator.mapTransaction stSelfPair txNew =
      .ok ⟨some ⟨some "A", none, none, none, none, none, none⟩,
           some ⟨some "A", none, none, none, none, none, none⟩,
           Q.jsMin ⟨95, 100⟩ ⟨95, 100⟩⟩ := by
  have h := (C10_pattern_stage_stubs [] stdFix [(txLearn, "A", "A")] txNew).1
    ⟨"A", ⟨95, 100⟩, "Historical pattern match"⟩ []
    ⟨"A", ⟨95, 100⟩, "Historical pattern match"⟩ []
    (by decide) (by decide) (by decide)
  exact h
